import Mathlib

/-!
Shallow embedding of the LVFS firmware ingestion, promotion and deletion
handlers from src/lvfs.py (functions upload, firmware_promote,
firmware_delete_force), together with the data model they operate on.

External collaborators whose code is not part of src/ (cabarchive,
appstream, InfParser, the database layer, the affidavit signing engine,
metadata feed generation) are modelled as explicit function parameters in
a Collab record or as small definitions translated from the spec; each of
those carries a doc comment saying so.
-/

namespace Lvfs

/-- A member file of a cabinet archive.  Modelled from the spec, section 4.1:
the Archive Parser produces an ordered list of named members with their
uncompressed contents (cabarchive is not part of src/). -/
structure CabFile where
  filename : String
  contents : String
deriving DecidableEq, Repr

/-- Archive parse failure, mirroring cabarchive.CorruptionError and
cabarchive.NotSupportedError as caught in upload (src/lvfs.py lines
304-307). -/
inductive CabError where
  | corruption (msg : String)
  | notSupported (msg : String)
deriving DecidableEq, Repr

/-- appstream checksum entry: release.get_checksum_by_target works on the
target field, and upload reads and writes the filename, kind and value
fields (src/lvfs.py lines 416-429, 504-507). -/
structure Checksum where
  target : String
  filename : String
  value : String
  kind : String
deriving DecidableEq, Repr

/-- appstream release entry as used by upload: version, description,
timestamp, the two sizes it assigns at lines 431-433, and the checksum
list. -/
structure Release where
  version : String
  description : String
  timestamp : Nat
  size_installed : Option Nat
  size_download : Option Nat
  checksums : List Checksum
deriving DecidableEq, Repr

/-- appstream component as used by upload (src/lvfs.py lines 479-507):
identity and descriptive fields, the provided GUID values and the release
entries.  Modelled from the spec, section 4.2 (appstream is not part of
src/); url_homepage stands for component.urls applied to the homepage
key. -/
structure Component where
  id : String
  name : String
  summary : String
  developer_name : String
  metadata_license : String
  project_license : String
  url_homepage : String
  description : String
  provides : List String
  releases : List Release
deriving DecidableEq, Repr

/-- appstream parse or validation failure as caught at src/lvfs.py lines
364-367. -/
inductive AppErr where
  | parseErr (msg : String)
  | validationErr (msg : String)
deriving DecidableEq, Repr

/-- LvfsFirmwareMd: the per-component database record built at src/lvfs.py
lines 479-509. -/
structure LvfsFirmwareMd where
  fwid : String
  cid : String
  name : String
  summary : String
  developer_name : String
  metadata_license : String
  project_license : String
  url_homepage : String
  description : String
  checksum_container : String
  guid : String
  version : String
  release_description : String
  release_timestamp : Nat
  release_installed_size : Nat
  release_download_size : Nat
  checksum_contents : String
  filename_contents : String
deriving DecidableEq, Repr

/-- LvfsFirmware: the parent firmware record built at src/lvfs.py lines
467-476. -/
structure LvfsFirmware where
  qa_group : String
  addr : String
  filename : String
  fwid : String
  target : String
  version_display : Option String
  mds : List LvfsFirmwareMd
deriving DecidableEq, Repr

/-- Durable state touched by the handlers: the firmware table
(db_firmware), the uploaded-originals store (UPLOAD_DIR), the published
store (DOWNLOAD_DIR), and the database file cache (db_cache), the cache
keyed by the string passed to from_file and delete at the call sites. -/
structure DbState where
  firmwares : List LvfsFirmware
  uploadDir : List (String × String)
  downloadDir : List (String × String)
  cache : List String
deriving DecidableEq, Repr

/-- The empty repository. -/
def emptyState : DbState := ⟨[], [], [], []⟩

/-- The session keys read by the handlers after _check_session has
verified their presence (src/lvfs.py lines 132-141). -/
structure Session where
  username : String
  qa_group : String
  qa_capability : Bool
  is_locked : Bool
deriving DecidableEq, Repr

/-- The uploaded form file: its submitted filename and raw data. -/
structure UploadFile where
  filename : String
  data : String
deriving DecidableEq, Repr

/-- The parts of the upload POST request the handler reads: the target
form field, the file, and the client address. -/
structure UploadRequest where
  target : Option String
  file : Option UploadFile
  addr : String
deriving DecidableEq, Repr

/-- Outcome of a handler: success redirect carrying the firmware id,
flask abort 401 via error_permission_denied, error_internal with its
errcode, or an unhandled Python exception propagating out of the
handler. -/
inductive Outcome where
  | ok (fwid : String)
  | permissionDenied (msg : String)
  | internalError (msg : String) (errcode : Nat)
  | crash (msg : String)
deriving DecidableEq, Repr

/-- True when the outcome is an unhandled exception. -/
def Outcome.isCrash : Outcome → Bool
  | .crash _ => true
  | _ => false

/-- External collaborators used by the handlers, passed in explicitly.
Modelled from the spec: cabarchive parse and save (section 4.1), appstream
parsing plus validation (section 4.2), InfParser section parsing (section
4.2), the hash function (section 4.4), detached-signature creation and
signing-key availability (section 4.4).  Signature trust verification is
collapsed to key availability because only NoKeyError is caught at the
call sites (src/lvfs.py lines 438-451). -/
structure Collab where
  parseCab : String → Except CabError (List CabFile)
  saveCab : List CabFile → String
  parseComponent : String → Except AppErr Component
  parseInf : String → List (String × List (String × String))
  sha1 : String → String
  sign : String → String
  keyAvailable : Bool

/-- Whether the first character list starts the second one. -/
def startsWithSeq : List Char → List Char → Bool
  | [], _ => true
  | _ :: _, [] => false
  | p :: ps, c :: cs => p == c && startsWithSeq ps cs

/-- String startswith over the character lists. -/
def strStartsWith (s pre : String) : Bool :=
  startsWithSeq pre.toList s.toList

/-- String endswith over the character lists. -/
def strEndsWith (s suf : String) : Bool :=
  startsWithSeq suf.toList.reverse s.toList.reverse

/-- Drop the first n characters of a string. -/
def strDrop (s : String) (n : Nat) : String :=
  String.mk (s.toList.drop n)

/-- Split a character list on a separator character, Python split
semantics. -/
def splitOnCharAux (sep : Char) : List Char → List Char → List String
  | [], acc => [String.mk acc.reverse]
  | ch :: cs, acc =>
    if ch == sep then String.mk acc.reverse :: splitOnCharAux sep cs []
    else splitOnCharAux sep cs (ch :: acc)

/-- Split a string on a separator character, Python split semantics. -/
def splitOnChar (sep : Char) (s : String) : List String :=
  splitOnCharAux sep s.toList []

/-- cabarchive find_file pattern match: the patterns used by upload are
either a leading-star suffix glob or a literal member name.  Modelled from
the spec, section 4.1 (lookup by exact name and by glob-style suffix
pattern). -/
def globMatch (pat : String) (name : String) : Bool :=
  if strStartsWith pat "*" then strEndsWith name (strDrop pat 1) else name == pat

/-- cabarchive find_file: first member matching the pattern. -/
def findFile (arc : List CabFile) (pat : String) : Option CabFile :=
  arc.find? (fun f => globMatch pat f.filename)

/-- cabarchive find_files: all members matching the pattern. -/
def findFiles (arc : List CabFile) (pat : String) : List CabFile :=
  arc.filter (fun f => globMatch pat f.filename)

/-- Whether the first character list occurs contiguously in the second. -/
def hasInfixSeq (pat : List Char) : List Char → Bool
  | [] => startsWithSeq pat []
  | l@(_ :: rest) => startsWithSeq pat l || hasInfixSeq pat rest

/-- The literal FIXME placeholder check of src/lvfs.py lines 314 and 370:
contents.find applied to FIXME compared with -1. -/
def containsFIXME (s : String) : Bool :=
  hasInfixSeq "FIXME".toList s.toList

/-- InfParser lookup of a key in a section; none models both
ConfigParser.NoSectionError and ConfigParser.NoOptionError. -/
def infGet (inf : List (String × List (String × String))) (sec key : String) :
    Option String :=
  match inf.find? (fun p => p.1 == sec) with
  | none => none
  | some p => (p.2.find? (fun kv => kv.1 == key)).map (fun kv => kv.2)

/-- Value of one hexadecimal digit character, as accepted by the Python
int call with base 16. -/
def hexDigitVal (ch : Char) : Option Nat :=
  if '0' ≤ ch ∧ ch ≤ '9' then some (ch.toNat - Char.toNat '0')
  else if 'a' ≤ ch ∧ ch ≤ 'f' then some (ch.toNat - Char.toNat 'a' + 10)
  else if 'A' ≤ ch ∧ ch ≤ 'F' then some (ch.toNat - Char.toNat 'A' + 10)
  else none

/-- Accumulating hexadecimal parse over the characters. -/
def parseHexDigits : List Char → Nat → Option Nat
  | [], acc => some acc
  | ch :: rest, acc =>
    match hexDigitVal ch with
    | none => none
    | some d => parseHexDigits rest (acc * 16 + d)

/-- The characters the Python int string parse strips at both ends. -/
def isPyWs (ch : Char) : Bool :=
  ch == ' ' || ch == '\t' || ch == '\n' || ch == '\r' ||
  ch == '\x0b' || ch == '\x0c'

/-- Python int with base 16: surrounding whitespace is stripped, one
leading sign and then one 0x or 0X prefix are accepted, and the remaining
characters must be one or more hexadecimal digits; none models the
ValueError raised otherwise. -/
def parseHexInt (s : String) : Option Int :=
  let l := ((s.toList.dropWhile isPyWs).reverse.dropWhile isPyWs).reverse
  let (sign, l2) : Int × List Char :=
    match l with
    | '-' :: rest => (-1, rest)
    | '+' :: rest => (1, rest)
    | _ => (1, l)
  let l3 :=
    match l2 with
    | '0' :: 'x' :: rest => rest
    | '0' :: 'X' :: rest => rest
    | _ => l2
  if l3.isEmpty then none
  else
    match parseHexDigits l3 0 with
    | none => none
    | some n => some (sign * n)

/-- os.path.basename: the part after the last slash. -/
def basename (s : String) : String :=
  (splitOnChar '/' s).getLastD s

/-- db_firmware.get_item: first firmware record with the given hash. -/
def get_item (st : DbState) (fwid : String) : Option LvfsFirmware :=
  st.firmwares.find? (fun fw => fw.fwid == fwid)

/-- All component records across the whole repository, in table order. -/
def mdsJoin (fws : List LvfsFirmware) : List LvfsFirmwareMd :=
  (fws.map (fun fw => fw.mds)).flatten

/-- Obfuscating hash applied to a QA group name in feed filenames.
Modelled from the spec, section 6 (util._qa_hash is not part of src/);
an injective stand-in tag. -/
def qaHash (g : String) : String := "qa-" ++ g

/-- metadata_update_qa_group: regenerates the owning-group feed and
returns its filename.  Modelled from the spec, sections 4.6 and 6
(metadata.py is not part of src/). -/
def metadata_update_qa_group (g : String) : List String :=
  ["firmware-" ++ qaHash g ++ ".xml.gz"]

/-- metadata_update_targets: regenerates the global feed for a target
scope and returns its filename.  Modelled from the spec, sections 4.6 and
6 (metadata.py is not part of src/). -/
def metadata_update_targets (targets : List String) : List String :=
  [targets.foldl (fun acc t => acc ++ "-" ++ t) "firmware" ++ ".xml.gz"]

/-- The published-distribution directory path used when caching the saved
archive (config.DOWNLOAD_DIR). -/
def DOWNLOAD_DIR : String := "downloads/"

/-- The fixed well-known GUID constant compared against Version:ClassGuid
at src/lvfs.py line 331. -/
def FIRMWARE_CLASS_GUID : String :=
  "\x7bf2e7dd72-6468-4e36-b6f1-6488f42c1b52\x7d"

/-- Normalization of the optional Firmware_AddReg HKR->FirmwareVersion
value, src/lvfs.py lines 344-348: a 0x-prefixed value is converted through
int with base 16 back to a decimal string, and a resulting literal 0 is
treated as absent.  The error case models the uncaught ValueError of the
int call. -/
def normalizeFwVersion (v : String) : Except Outcome (Option String) :=
  if strStartsWith v "0x" then
    match parseHexInt (strDrop v 2) with
    | none => .error (.crash "ValueError: invalid literal for int with base 16")
    | some n => .ok (if toString n == "0" then none else some (toString n))
  else .ok (if v == "0" then none else some v)

/-- The DriverVer handling of src/lvfs.py lines 333-339: optional, but a
present value must split on the comma into exactly two fields. -/
def infDriverVer (inf : List (String × List (String × String))) :
    Except Outcome (Option (String × String)) :=
  match infGet inf "Version" "DriverVer" with
  | none => .ok none
  | some dv =>
    match splitOnChar ',' dv with
    | [a, b] => .ok (some (a, b))
    | _ => .error (.internalError "The inf file Version:DriverVer was invalid" 402)

/-- The Firmware_AddReg HKR->FirmwareVersion handling of src/lvfs.py lines
341-350: optional, normalized when present. -/
def infFwVersion (inf : List (String × List (String × String))) :
    Except Outcome (Option String) :=
  match infGet inf "Firmware_AddReg" "HKR->FirmwareVersion" with
  | none => .ok none
  | some v => normalizeFwVersion v

/-- The inf-file validation block of upload, src/lvfs.py lines 309-350.
When no *.inf member exists the whole block is skipped and both results
stay absent.  Returns the normalized HKR->FirmwareVersion value and the
two comma-separated DriverVer fields. -/
def infChecks (c : Collab) (arc : List CabFile) :
    Except Outcome (Option String × Option (String × String)) :=
  match findFile arc "*.inf" with
  | none => .ok (none, none)
  | some cf =>
    if containsFIXME cf.contents then
      .error (.internalError
        "The inf file was not complete; Any FIXME text must be replaced with the correct values." 402)
    else
      match infGet (c.parseInf cf.contents) "Version" "Class" with
      | none => .error (.internalError "The inf file Version:Class was missing" 402)
      | some cls =>
        if cls != "Firmware" then
          .error (.internalError "The inf file Version:Class was invalid" 402)
        else
          match infGet (c.parseInf cf.contents) "Version" "ClassGuid" with
          | none => .error (.internalError "The inf file Version:ClassGuid was missing" 402)
          | some cg =>
            if cg != FIRMWARE_CLASS_GUID then
              .error (.internalError "The inf file Version:ClassGuid was invalid" 402)
            else
              match infDriverVer (c.parseInf cf.contents) with
              | .error o => .error o
              | .ok fwvd =>
                match infFwVersion (c.parseInf cf.contents) with
                | .error o => .error o
                | .ok fwvi => .ok (fwvi, fwvd)

/-- The inf-to-descriptor version mismatch message built at src/lvfs.py
lines 382-384 (the quote characters of the Python format string are
omitted). -/
def versionMismatchMsg (fwvi ver : String) : String :=
  "The inf Firmware_AddReg[HKR->FirmwareVersion] " ++ fwvi ++
  " did not match the metainfo.xml value " ++ ver ++ "."

/-- The inf version comparison guard of src/lvfs.py line 381: the Python
condition tests the truthiness of the surviving value first, so None and
the empty string both skip the comparison; otherwise the value must
differ from the first release version of the descriptor. -/
def fwviMismatch : Option String → String → Bool
  | none, _ => false
  | some v, ver => v != "" && v != ver

/-- The per-metainfo validation loop of upload, src/lvfs.py lines 357-403:
parse and validate each descriptor, reject FIXME placeholders, require a
provided GUID and a release, compare against the inf firmware version, and
check the repository for a duplicate (guid, version) pair and for a
component id reused with a different GUID. -/
def processMetainfos (c : Collab) (st : DbState) (fwvi : Option String) :
    List CabFile → Except Outcome (List Component)
  | [] => .ok []
  | cf :: rest =>
    match c.parseComponent cf.contents with
    | .error (.parseErr e) =>
      .error (.internalError ("The metadata could not be parsed: " ++ e) 402)
    | .error (.validationErr e) =>
      .error (.internalError ("The metadata file did not validate: " ++ e) 402)
    | .ok comp =>
      if containsFIXME cf.contents then
        .error (.internalError
          "The metadata file was not complete; Any FIXME text must be replaced with the correct values." 402)
      else
        match comp.provides, comp.releases with
        | [], _ => .error (.internalError "The metadata file did not provide any GUID." 402)
        | _, [] => .error (.internalError "The metadata file did not provide any releases." 402)
        | guid0 :: _, rel0 :: _ =>
          if fwviMismatch fwvi rel0.version then
            .error (.internalError (versionMismatchMsg (fwvi.getD "") rel0.version) 402)
          else if (mdsJoin st.firmwares).any
              (fun md => md.guid == guid0 && md.version == rel0.version) then
            .error (.internalError "A firmware file for this version already exists" 422)
          else
            match (mdsJoin st.firmwares).find?
                (fun md => md.cid == comp.id && md.guid != guid0) with
            | some md =>
              .error (.internalError
                ("The " ++ md.cid ++ " ID has already been used by GUID " ++ md.guid) 422)
            | none =>
              match processMetainfos c st fwvi rest with
              | .error o => .error o
              | .ok comps => .ok (comp :: comps)

/-- The validated context of an upload after all checks of src/lvfs.py
lines 264-403 have passed, immediately before the artifact save. -/
structure UploadCtx where
  target : String
  data : String
  origName : String
  addr : String
  fwid : String
  arc : List CabFile
  fwVerDisp : Option (String × String)
  apps : List Component
deriving Repr

/-- The validation phase of upload, src/lvfs.py lines 264-403: form
fields, QA permission for stable and testing targets, size gates, the
duplicate package hash check, archive parsing, the inf block and the
per-metainfo loop.  No durable state is touched in this phase. -/
def uploadChecks (c : Collab) (sess : Session) (st : DbState)
    (req : UploadRequest) : Except Outcome UploadCtx :=
  match req.target with
  | none => .error (.internalError "No target" 402)
  | some target =>
    match req.file with
    | none => .error (.internalError "No file" 402)
    | some file =>
      if (target == "stable" || target == "testing") && !sess.qa_capability then
        .error (.permissionDenied "Unable to upload to this target as not QA user")
      else
        let data := file.data
        if 50000000 < data.length then
          .error (.internalError "File too large, limit is 50Mb" 413)
        else if data.length == 0 then
          .error (.internalError "File has no content" 402)
        else if data.length < 1024 then
          .error (.internalError "File too small, mimimum is 1k" 402)
        else
          let fwid := c.sha1 data
          match get_item st fwid with
          | some _ =>
            .error (.internalError
              ("A firmware file with hash " ++ fwid ++ " already exists") 422)
          | none =>
            match c.parseCab data with
            | .error (.corruption e) =>
              .error (.internalError ("Invalid file type: " ++ e) 415)
            | .error (.notSupported e) =>
              .error (.internalError ("The file is unsupported: " ++ e) 415)
            | .ok arc =>
              match infChecks c arc with
              | .error o => .error o
              | .ok (fwvi, fwvd) =>
                match findFiles arc "*.metainfo.xml" with
                | [] =>
                  .error (.internalError "The firmware file had no .metadata.xml files" 402)
                | cfs =>
                  match processMetainfos c st fwvi cfs with
                  | .error o => .error o
                  | .ok apps =>
                    .ok ⟨target, data, file.filename, req.addr, fwid, arc, fwvd, apps⟩

/-- Replace the first checksum whose target is content; get_checksum_by_target
returns a reference that upload mutates in place (src/lvfs.py lines
417-429). -/
def replaceFirstContent : List Checksum → Checksum → List Checksum
  | [], _ => []
  | cs :: rest, c' =>
    if cs.target == "content" then c' :: rest else cs :: replaceFirstContent rest c'

/-- One iteration of the checksum fixing and signature loop of upload,
src/lvfs.py lines 413-451: find or synthesize the content checksum entry,
look up the payload member, overwrite the checksum value with the sha1 of
the actual bytes, set both sizes, and add or verify the detached signature
member, possibly growing the archive with a new .asc member. -/
def fixOne (c : Collab) (data : String) (arc : List CabFile)
    (comp : Component) : Except Outcome (List CabFile × Component) :=
  match comp.releases with
  | [] => .error (.crash "IndexError: list index out of range")
  | release :: rels =>
    let csum0 := release.checksums.find? (fun cs => cs.target == "content")
    let hadContent := csum0.isSome
    let csum := csum0.getD ⟨"content", "firmware.bin", "", ""⟩
    match findFile arc csum.filename with
    | none =>
      .error (.internalError ("No " ++ csum.filename ++ " found in the archive") 402)
    | some fw_data =>
      let csum' : Checksum :=
        { csum with kind := "sha1", value := c.sha1 fw_data.contents }
      let release' : Release :=
        { release with
          checksums :=
            if hadContent then replaceFirstContent release.checksums csum'
            else release.checksums ++ [csum'],
          size_installed := some fw_data.contents.length,
          size_download := some data.length }
      let comp' : Component := { comp with releases := release' :: rels }
      match findFile arc (csum.filename ++ ".asc") with
      | none =>
        if c.keyAvailable then
          .ok (arc ++ [⟨fw_data.filename ++ ".asc", c.sign fw_data.contents⟩],
            comp')
        else .error (.internalError "Failed to sign archive: no signing key" 402)
      | some _ =>
        if c.keyAvailable then .ok (arc, comp')
        else .error (.internalError "Failed to verify archive: no signing key" 402)

/-- The checksum fixing and signature loop of upload over all components,
threading the growing archive. -/
def fixChecksums (c : Collab) (data : String) (arc : List CabFile) :
    List Component → Except Outcome (List CabFile × List Component)
  | [] => .ok (arc, [])
  | comp :: rest =>
    match fixOne c data arc comp with
    | .error o => .error o
    | .ok (arc2, comp') =>
      match fixChecksums c data arc2 rest with
      | .error o => .error o
      | .ok (arcF, comps) => .ok (arcF, comp' :: comps)

/-- Build the LvfsFirmwareMd child record from one component, src/lvfs.py
lines 479-507; none models the AttributeError or IndexError a missing
provide, release, or content checksum would raise. -/
def mdOf (fwid checksum_container : String) (comp : Component) :
    Option LvfsFirmwareMd :=
  match comp.provides, comp.releases with
  | prov :: _, rel :: _ =>
    match rel.checksums.find? (fun cs => cs.target == "content") with
    | none => none
    | some csum =>
      some
        { fwid := fwid, cid := comp.id, name := comp.name, summary := comp.summary,
          developer_name := comp.developer_name,
          metadata_license := comp.metadata_license,
          project_license := comp.project_license,
          url_homepage := comp.url_homepage, description := comp.description,
          checksum_container := checksum_container, guid := prov,
          version := rel.version, release_description := rel.description,
          release_timestamp := rel.timestamp,
          release_installed_size := rel.size_installed.getD 0,
          release_download_size := rel.size_download.getD 0,
          checksum_contents := csum.value, filename_contents := csum.filename }
  | _, _ => none

/-- Build all child records in order. -/
def mdsOf (fwid checksum_container : String) :
    List Component → Option (List LvfsFirmwareMd)
  | [] => some []
  | comp :: rest =>
    match mdOf fwid checksum_container comp, mdsOf fwid checksum_container rest with
    | some md, some mds => some (md :: mds)
    | _, _ => none

/-- Cache update for the regenerated feed files and their detached
signatures, src/lvfs.py lines 540-542. -/
def cacheFeeds (cache : List String) (filenames : List String) : List String :=
  filenames.foldl (fun cc fn => (fn ++ ".asc") :: fn :: cc) cache

/-- The feed filenames regenerated after a successful upload, src/lvfs.py
lines 521-530: the owning-group feed unless the target is private, plus
the global feed scope selected by the new target. -/
def uploadFeeds (qaGroup target : String) : List String :=
  (if target != "private" then metadata_update_qa_group qaGroup else []) ++
  (if target == "stable" then metadata_update_targets ["stable", "testing"]
   else if target == "testing" then metadata_update_targets ["testing"] else [])

/-- The stored filename of an upload, src/lvfs.py line 407: the package
hash joined to the basename of the submitted filename. -/
def newFilenameOf (ctx : UploadCtx) : String :=
  ctx.fwid ++ "-" ++ basename ctx.origName

/-- The parent firmware record built at src/lvfs.py lines 467-476 with its
child records attached. -/
def mkFwobj (sess : Session) (ctx : UploadCtx) (mds : List LvfsFirmwareMd) :
    LvfsFirmware :=
  { qa_group := sess.qa_group, addr := ctx.addr, filename := newFilenameOf ctx,
    fwid := ctx.fwid, target := ctx.target,
    version_display := ctx.fwVerDisp.map (fun p => p.2), mds := mds }

/-- The commit phase of upload, src/lvfs.py lines 405-553: write the
original archive to the upload store, fix checksums and signatures, save
the re-serialized archive to the download store and cache it, insert the
firmware record, regenerate and sign the affected feeds and cache them.
Errors in this phase leave behind whatever was already written. -/
def uploadCommit (c : Collab) (sess : Session) (st : DbState)
    (ctx : UploadCtx) : Outcome × DbState :=
  let newFilename := newFilenameOf ctx
  let st1 := { st with uploadDir := (newFilename, ctx.data) :: st.uploadDir }
  match fixChecksums c ctx.data ctx.arc ctx.apps with
  | .error o => (o, st1)
  | .ok (arcF, apps') =>
    let cabData := c.saveCab arcF
    let checksumContainer := c.sha1 cabData
    let st2 := { st1 with
      downloadDir := (newFilename, cabData) :: st1.downloadDir,
      cache := (DOWNLOAD_DIR ++ newFilename) :: st1.cache }
    match mdsOf ctx.fwid checksumContainer apps' with
    | none => (.crash "AttributeError", st2)
    | some mds =>
      let fwobj := mkFwobj sess ctx mds
      let st3 := { st2 with firmwares := fwobj :: st2.firmwares }
      let filenames := uploadFeeds sess.qa_group ctx.target
      if !c.keyAvailable then
        (.internalError "Failed to sign metadata: no signing key" 402, st3)
      else
        (.ok ctx.fwid, { st3 with cache := cacheFeeds st3.cache filenames })

/-- The upload handler of src/lvfs.py lines 252-553 for an authenticated
POST request: the validation phase followed, when it passes, by the commit
phase. -/
def upload (c : Collab) (sess : Session) (st : DbState)
    (req : UploadRequest) : Outcome × DbState :=
  match uploadChecks c sess st req with
  | .error o => (o, st)
  | .ok ctx => uploadCommit c sess st ctx

/-- Retargeting map applied to the firmware table by set_target. -/
def retarget (fwid target : String) (fw : LvfsFirmware) : LvfsFirmware :=
  if fw.fwid == fwid then { fw with target := target } else fw

/-- db_firmware.set_target: update the target of every record with the
given hash. -/
def set_target (st : DbState) (fwid target : String) : DbState :=
  { st with firmwares := st.firmwares.map (retarget fwid target) }

/-- The feed filenames regenerated after a promotion, src/lvfs.py lines
750-756: the feed of the owning group of the fetched item, plus the
global feed scope selected by the new target only. -/
def promoteFeeds (qaGroup target : String) : List String :=
  metadata_update_qa_group qaGroup ++
  (if target == "stable" then metadata_update_targets ["stable", "testing"]
   else if target == "testing" then metadata_update_targets ["testing"] else [])

/-- Tail of firmware_promote after the permission and validity gates,
src/lvfs.py lines 741-770: set_target runs first; the subsequent read of
item.qa_group crashes with AttributeError when the item was not found, and
feed regeneration precedes signing, which fails without a signing key. -/
def firmware_promote_commit (c : Collab) (st : DbState)
    (item? : Option LvfsFirmware) (fwid target : String) :
    Outcome × DbState × List String :=
  let st1 := set_target st fwid target
  match item? with
  | none =>
    (.crash "AttributeError: NoneType object has no attribute qa_group", st1, [])
  | some item =>
    let filenames := promoteFeeds item.qa_group target
    if !c.keyAvailable then
      (.internalError "Failed to sign metadata: no signing key" 402, st1, filenames)
    else
      (.ok fwid, st1, filenames)

/-- The firmware_promote handler, src/lvfs.py lines 713-770, for an
authenticated request: QA capability gate, target validity gate, owning
group check (reading item.qa_group even when the item was not found), then
the commit tail.  The third result component lists the regenerated feed
files. -/
def firmware_promote (c : Collab) (sess : Session) (st : DbState)
    (fwid target : String) : Outcome × DbState × List String :=
  if !sess.qa_capability then
    (.permissionDenied "Unable to promote as not QA", st, [])
  else if !(["stable", "testing", "private", "embargo"].contains target) then
    (.internalError ("Target " ++ target ++ " invalid") 402, st, [])
  else
    let item? := get_item st fwid
    if sess.username == "admin" then
      firmware_promote_commit c st item? fwid target
    else
      match item? with
      | none =>
        (.crash "AttributeError: NoneType object has no attribute qa_group", st, [])
      | some item =>
        if item.qa_group != sess.qa_group then
          (.permissionDenied ("No QA access to " ++ fwid), st, [])
        else
          firmware_promote_commit c st (some item) fwid target

/-- The firmware_delete_force handler, src/lvfs.py lines 645-711, for an
authenticated request: existence and permission gates, then removal from
the firmware table, the cache and both artifact stores, followed by feed
regeneration (scoped by the old target) and signing.  The third result
component lists the regenerated feed files. -/
def firmware_delete_force (c : Collab) (sess : Session) (st : DbState)
    (fwid : String) : Outcome × DbState × List String :=
  match get_item st fwid with
  | none =>
    (.internalError ("No firmware file with hash " ++ fwid ++ " exists") 402, st, [])
  | some item =>
    if sess.username != "admin" && item.qa_group != sess.qa_group then
      (.permissionDenied ("No QA access to " ++ fwid), st, [])
    else if !sess.qa_capability && item.target == "stable" then
      (.permissionDenied "Unable to delete stable firmware as not QA", st, [])
    else
      let st1 : DbState :=
        { firmwares := st.firmwares.filter (fun fw => fw.fwid != fwid),
          uploadDir := st.uploadDir.filter (fun e => e.1 != item.filename),
          downloadDir := st.downloadDir.filter (fun e => e.1 != item.filename),
          cache := st.cache.filter (fun p => p != item.filename) }
      let filenames := promoteFeeds item.qa_group item.target
      if !c.keyAvailable then
        (.internalError "Failed to sign metadata: no signing key" 402, st1, filenames)
      else
        (.ok fwid, st1, filenames)

/-- The version of the first release of a descriptor, the value every
check in upload reads. -/
def headVersion (comp : Component) : String :=
  match comp.releases with
  | [] => ""
  | r :: _ => r.version

/-- The first provided GUID of a descriptor, the value every check in
upload reads. -/
def headGuid (comp : Component) : String :=
  comp.provides.headD ""

/-- The first content checksum entry of the first release, the value
get_checksum_by_target returns. -/
def contentChecksum? (comp : Component) : Option Checksum :=
  match comp.releases with
  | [] => none
  | r :: _ => r.checksums.find? (fun cs => cs.target == "content")

/-- The content filename upload uses for a descriptor: the declared
entry when one exists, otherwise the synthesized firmware.bin. -/
def contentFilenameSpec (comp : Component) (fn : String) : Prop :=
  (contentChecksum? comp = none ∧ fn = "firmware.bin") ∨
  (∃ cs, contentChecksum? comp = some cs ∧ fn = cs.filename)

/-- What the checksum-fixing loop establishes for one component: identity
and provides are untouched, the first release version is untouched, and
the content checksum entry now names an actual member of the final
archive and carries the sha1 of the bytes of that member. -/
def fixRel (c : Collab) (arcF : List CabFile) (comp comp' : Component) :
    Prop :=
  comp'.id = comp.id ∧ comp'.provides = comp.provides ∧
  headVersion comp' = headVersion comp ∧
  ∃ cf fn, cf ∈ arcF ∧ globMatch fn cf.filename = true ∧
    contentFilenameSpec comp fn ∧
    contentChecksum? comp' =
      some { target := "content", filename := fn,
             value := c.sha1 cf.contents, kind := "sha1" }

/-! ### Concrete fixtures used by witnesses and counterexamples -/

/-- A 1024-byte upload body, the smallest size the handler accepts. -/
def testData : String := String.mk (List.replicate 1024 'a')

/-- A well-formed single-component descriptor. -/
def comp1 : Component :=
  { id := "com.hughski.colorhug", name := "ColorHug", summary := "s",
    developer_name := "Hughski", metadata_license := "CC0-1.0",
    project_license := "GPL-2.0", url_homepage := "http://example.com",
    description := "d", provides := ["g1"],
    releases := [⟨"1.2.3", "rdesc", 20, none, none, []⟩] }

/-- A well-formed archive: inf file, one descriptor, the default payload. -/
def testArc1 : List CabFile :=
  [⟨"firmware.inf", "INF1"⟩, ⟨"device.metainfo.xml", "M1"⟩,
   ⟨"firmware.bin", "PAYLOAD1"⟩]

/-- The parsed inf table for the well-formed archive. -/
def testInf1 : List (String × List (String × String)) :=
  [("Version",
    [("Class", "Firmware"), ("ClassGuid", FIRMWARE_CLASS_GUID),
     ("DriverVer", "01/01/2020,1.2.3")])]

/-- Collaborators for the well-formed single-component archive. -/
def collab1 : Collab :=
  { parseCab := fun _ => .ok testArc1,
    saveCab := fun arc => "CAB" ++ toString arc.length,
    parseComponent := fun s => if s == "M1" then .ok comp1 else .error (.parseErr "bad"),
    parseInf := fun _ => testInf1,
    sha1 := fun s => "h" ++ toString s.length,
    sign := fun _ => "SIG",
    keyAvailable := true }

/-- A non-QA vendor session. -/
def sess1 : Session := ⟨"user1", "g-vendor", false, false⟩

/-- A QA-capable vendor session in the same group. -/
def sessQA : Session := ⟨"user2", "g-vendor", true, false⟩

/-- A QA-capable administrator session. -/
def sessAdmin : Session := ⟨"admin", "g-admin", true, false⟩

/-- A private-target upload request carrying the well-formed body. -/
def req1 : UploadRequest := ⟨some "private", some ⟨"fw.cab", testData⟩, "10.0.0.1"⟩

/-- First of two descriptors declaring the same (guid, version) pair. -/
def compDupA : Component :=
  { comp1 with
    id := "id.dup.a"
    provides := ["gd"]
    releases := [⟨"9.9", "r", 0, none, none, []⟩] }

/-- Second of two descriptors declaring the same (guid, version) pair. -/
def compDupB : Component :=
  { comp1 with
    id := "id.dup.b"
    provides := ["gd"]
    releases := [⟨"9.9", "r", 0, none, none, []⟩] }

/-- Archive holding two descriptors with the same (guid, version) pair. -/
def arcDup : List CabFile :=
  [⟨"a.metainfo.xml", "MA"⟩, ⟨"b.metainfo.xml", "MB"⟩,
   ⟨"firmware.bin", "PAYD"⟩]

/-- Collaborators delivering the duplicate-pair archive. -/
def collabDup : Collab :=
  { collab1 with
    parseCab := fun _ => .ok arcDup,
    parseComponent := fun s =>
      if s == "MA" then .ok compDupA
      else if s == "MB" then .ok compDupB
      else .error (.parseErr "bad") }

/-- First of two descriptors reusing one component id for different
GUIDs. -/
def compCidA : Component :=
  { comp1 with
    id := "id.same"
    provides := ["g-x"]
    releases := [⟨"1.0", "r", 0, none, none, []⟩] }

/-- Second of two descriptors reusing one component id for different
GUIDs. -/
def compCidB : Component :=
  { comp1 with
    id := "id.same"
    provides := ["g-y"]
    releases := [⟨"2.0", "r", 0, none, none, []⟩] }

/-- Archive holding two descriptors reusing one component id for
different GUIDs. -/
def arcCid : List CabFile :=
  [⟨"a.metainfo.xml", "CA"⟩, ⟨"b.metainfo.xml", "CB"⟩,
   ⟨"firmware.bin", "PAYC"⟩]

/-- Collaborators delivering the id-reuse archive. -/
def collabCid : Collab :=
  { collab1 with
    parseCab := fun _ => .ok arcCid,
    parseComponent := fun s =>
      if s == "CA" then .ok compCidA
      else if s == "CB" then .ok compCidB
      else .error (.parseErr "bad") }

/-- A descriptor declaring a content checksum whose filename has no
matching archive member. -/
def compMissing : Component :=
  { comp1 with
    id := "id.missing"
    provides := ["gm"]
    releases :=
      [⟨"1.0", "r", 0, none, none,
        [⟨"content", "missing.bin", "submitted-value", "sha1"⟩]⟩] }

/-- Archive for the missing-content-member scenario. -/
def arcMissing : List CabFile :=
  [⟨"a.metainfo.xml", "MM"⟩, ⟨"firmware.bin", "PAYM"⟩]

/-- Collaborators delivering the missing-content-member archive. -/
def collabMissing : Collab :=
  { collab1 with
    parseCab := fun _ => .ok arcMissing,
    parseComponent := fun s =>
      if s == "MM" then .ok compMissing else .error (.parseErr "bad") }

/-- A well-formed archive that carries no inf file at all. -/
def arcNoInf : List CabFile :=
  [⟨"device.metainfo.xml", "NI"⟩, ⟨"firmware.bin", "PAYN"⟩]

/-- A descriptor for the no-inf archive. -/
def compNoInf : Component :=
  { comp1 with
    id := "id.noinf"
    provides := ["gn"]
    releases := [⟨"3.0", "r", 0, none, none, []⟩] }

/-- Collaborators delivering the archive without an inf file. -/
def collabNoInf : Collab :=
  { collab1 with
    parseCab := fun _ => .ok arcNoInf,
    parseComponent := fun s =>
      if s == "NI" then .ok compNoInf else .error (.parseErr "bad") }

/-- Collaborators delivering the well-formed archive but with an inf
table whose Version Class key carries the wrong value. -/
def collabBadClass : Collab :=
  { collab1 with
    parseInf := fun _ => [("Version", [("Class", "Display")])] }

/-- Collaborators delivering the well-formed archive but with an inf
table whose Version ClassGuid key carries the wrong value. -/
def collabBadGuid : Collab :=
  { collab1 with
    parseInf := fun _ =>
      [("Version", [("Class", "Firmware"), ("ClassGuid", "not-the-guid")])] }

/-- Collaborators delivering the well-formed archive with an inf table
that supplies an empty Firmware_AddReg HKR->FirmwareVersion value. -/
def collabEmptyFwv : Collab :=
  { collab1 with
    parseInf := fun _ =>
      [("Version",
        [("Class", "Firmware"), ("ClassGuid", FIRMWARE_CLASS_GUID)]),
       ("Firmware_AddReg", [("HKR->FirmwareVersion", "")])] }

/-- The well-formed descriptor with first release version 258, matching a
hex-normalized inf firmware version. -/
def compV258 : Component :=
  { comp1 with
    releases := [⟨"258", "rdesc", 20, none, none, []⟩] }

/-- Collaborators delivering the well-formed archive with an inf table
that supplies the hex FirmwareVersion 0x102 and a descriptor carrying its
decimal form 258. -/
def collabFwv102 : Collab :=
  { collab1 with
    parseInf := fun _ =>
      [("Version",
        [("Class", "Firmware"), ("ClassGuid", FIRMWARE_CLASS_GUID)]),
       ("Firmware_AddReg", [("HKR->FirmwareVersion", "0x102")])],
    parseComponent := fun s =>
      if s == "M1" then .ok compV258 else .error (.parseErr "bad") }

/-- The validated upload context produced by the hex-FirmwareVersion
scenario. -/
def ctx258 : UploadCtx :=
  ⟨"private", testData, "fw.cab", "10.0.0.1", "h1024", testArc1, none,
    [compV258]⟩

/-- A stored component record for promotion scenarios. -/
def mdStable : LvfsFirmwareMd :=
  { fwid := "f1", cid := "id.stable", name := "n", summary := "s",
    developer_name := "v", metadata_license := "l", project_license := "l",
    url_homepage := "u", description := "d", checksum_container := "cc",
    guid := "gs", version := "5.0", release_description := "r",
    release_timestamp := 0, release_installed_size := 1,
    release_download_size := 2, checksum_contents := "hs",
    filename_contents := "firmware.bin" }

/-- A stored stable firmware owned by the vendor group. -/
def fwStable : LvfsFirmware :=
  { qa_group := "g-vendor", addr := "a", filename := "f1-fw.cab",
    fwid := "f1", target := "stable", version_display := none,
    mds := [mdStable] }

/-- A repository holding one stable firmware owned by the vendor group. -/
def stStable : DbState := ⟨[fwStable], [], [], ["f1-fw.cab"]⟩

/-- Component records violating the claimed per-repository (guid,
version) uniqueness, counted pairwise including records of the same
package. -/
def noDupPairs : List LvfsFirmwareMd → Bool
  | [] => true
  | md :: rest =>
    rest.all (fun md2 => !(md2.guid == md.guid && md2.version == md.version)) &&
    noDupPairs rest

/-- Component records violating the claimed component-id binding, counted
pairwise including records of the same package. -/
def noDupCids : List LvfsFirmwareMd → Bool
  | [] => true
  | md :: rest =>
    rest.all (fun md2 => !(md2.cid == md.cid && md2.guid != md.guid)) &&
    noDupCids rest

/-- Cross-package variant of the (guid, version) uniqueness check: one
package against every later package in table order. -/
def crossNoDupPairs : List LvfsFirmware → Bool
  | [] => true
  | fw :: rest =>
    fw.mds.all (fun md1 =>
      (mdsJoin rest).all (fun md2 =>
        !(md1.guid == md2.guid && md1.version == md2.version))) &&
    crossNoDupPairs rest

/-- Cross-package variant of the component-id binding check: one package
against every later package in table order. -/
def crossNoDupCids : List LvfsFirmware → Bool
  | [] => true
  | fw :: rest =>
    fw.mds.all (fun md1 =>
      (mdsJoin rest).all (fun md2 =>
        !(md1.cid == md2.cid && md1.guid != md2.guid))) &&
    crossNoDupCids rest

/-- Repository states reachable from the empty repository through the
upload handler alone, with arbitrary collaborators, sessions and
requests. -/
inductive ReachableIngest : DbState → Prop where
  | init : ReachableIngest emptyState
  | step (c : Collab) (sess : Session) (req : UploadRequest)
      {st st' : DbState} {o : Outcome} :
      ReachableIngest st → upload c sess st req = (o, st') →
      ReachableIngest st'

/-- The repository state produced by ingesting the well-formed
single-component archive into the empty repository. -/
def stGood : DbState := (upload collab1 sess1 emptyState req1).2

/-- The repository state produced by ingesting the duplicate-pair
archive into the empty repository. -/
def stBadPair : DbState := (upload collabDup sess1 emptyState req1).2

/-- The repository state produced by ingesting the id-reuse archive into
the empty repository. -/
def stBadCid : DbState := (upload collabCid sess1 emptyState req1).2

end Lvfs






namespace Lvfs

/-! ### Theorems -/

/-- C9: promoting a package id that is not in the repository raises
AttributeError inside firmware_promote (src/lvfs.py line 739 for non-admin
sessions, line 750 for admin sessions) instead of returning a NotFound
outcome: the handler never checks whether get_item found anything. -/
theorem C9_promote_missing_id_crashes :
    (firmware_promote collab1 sessQA emptyState "nope" "stable").1 =
      Outcome.crash "AttributeError: NoneType object has no attribute qa_group" ∧
    (firmware_promote collab1 sessAdmin emptyState "nope" "stable").1 =
      Outcome.crash "AttributeError: NoneType object has no attribute qa_group" ∧
    (firmware_promote collab1 sessQA emptyState "nope" "stable").2.1 = emptyState := by
  refine ⟨rfl, rfl, rfl⟩

set_option maxRecDepth 100000 in
/-- C2, counterexample: a single ingest of one archive carrying two
descriptors with the same (guid, version) pair succeeds, because the
duplicate check of src/lvfs.py lines 386-394 only inspects records already
in the repository, never the other descriptors of the same upload; the
reachable result state holds two component records sharing a pair. -/
theorem C2_pair_uniqueness_counterexample :
    ReachableIngest stBadPair ∧
    noDupPairs (mdsJoin stBadPair.firmwares) = false := by
  constructor
  · exact ReachableIngest.step collabDup sess1 req1 ReachableIngest.init rfl
  · decide

set_option maxRecDepth 100000 in
/-- C6, counterexample: a single ingest of one archive carrying two
descriptors that reuse one component id for two different GUIDs succeeds,
because the id-reuse check of src/lvfs.py lines 396-400 only inspects
records already in the repository; the reachable result state binds the
same component id to two GUIDs. -/
theorem C6_cid_binding_counterexample :
    ReachableIngest stBadCid ∧
    noDupCids (mdsJoin stBadCid.firmwares) = false := by
  constructor
  · exact ReachableIngest.step collabCid sess1 req1 ReachableIngest.init rfl
  · decide

set_option maxRecDepth 100000 in
/-- C3, counterexample: when the content filename declared by the
descriptor has no matching archive member, upload fails with a fatal
validation error, yet the original archive was already written to the
upload store at src/lvfs.py line 410, so durable state differs from the
pre-request state. -/
theorem C3_no_mutation_counterexample :
    (upload collabMissing sess1 emptyState req1).1 =
      Outcome.internalError "No missing.bin found in the archive" 402 ∧
    (upload collabMissing sess1 emptyState req1).2 ≠ emptyState := by
  constructor
  · decide
  · decide

/-- C5, counterexample: demoting a stable package to private regenerates
only the owning-group feed, because src/lvfs.py lines 751-756 inspect only
the new target; the transition leaves the stable state but the global
stable-and-testing feed is not regenerated. -/
theorem C5_feed_regeneration_counterexample :
    (get_item stStable "f1").map (fun fw => fw.target) = some "stable" ∧
    (firmware_promote collab1 sessAdmin stStable "f1" "private").1 =
      Outcome.ok "f1" ∧
    (firmware_promote collab1 sessAdmin stStable "f1" "private").2.2 =
      metadata_update_qa_group "g-vendor" ∧
    ¬ (metadata_update_targets ["stable", "testing"]).all
        (fun fn => (firmware_promote collab1 sessAdmin stStable "f1" "private").2.2.contains fn) := by
  refine ⟨rfl, rfl, rfl, by decide⟩

/-- Mapping the firmware table through retarget preserves lookup by hash,
sending the found record through retarget. -/
lemma find?_map_retarget (l : List LvfsFirmware) (fwid target : String)
    (it : LvfsFirmware)
    (h : l.find? (fun fw => fw.fwid == fwid) = some it) :
    (l.map (retarget fwid target)).find? (fun fw => fw.fwid == fwid) =
      some (retarget fwid target it) := by
  induction l with
  | nil => exact absurd h (by simp)
  | cons hd tl ih =>
    have hfwid : (retarget fwid target hd).fwid = hd.fwid := by
      unfold retarget; split <;> rfl
    by_cases hp : (hd.fwid == fwid) = true
    · simp only [List.find?_cons, hp] at h
      injection h with h
      subst h
      simp only [List.map_cons, List.find?_cons, hfwid, hp]
    · have hp' : (hd.fwid == fwid) = false := by simpa using hp
      simp only [List.find?_cons, hp'] at h
      simp only [List.map_cons, List.find?_cons, hfwid, hp']
      exact ih h

/-- C10: the upload size gates of src/lvfs.py lines 280-285 run before
archive parsing and before any durable write: a body larger than
50000000 bytes, an empty body, or a body below 1024 bytes is each
rejected with its own error and an unchanged repository, so only bodies
with length in the closed range from 1024 to 50000000 reach archive
parsing. -/
theorem C10_size_gates (c : Collab) (sess : Session) (st : DbState)
    (req : UploadRequest) (target : String) (file : UploadFile)
    (ht : req.target = some target) (hf : req.file = some file)
    (hperm : ((target == "stable" || target == "testing") &&
      !sess.qa_capability) = false) :
    (50000000 < file.data.length →
      upload c sess st req =
        (.internalError "File too large, limit is 50Mb" 413, st)) ∧
    (file.data.length = 0 →
      upload c sess st req = (.internalError "File has no content" 402, st)) ∧
    (file.data.length < 1024 → file.data.length ≠ 0 →
      upload c sess st req =
        (.internalError "File too small, mimimum is 1k" 402, st)) := by
  unfold upload uploadChecks
  rw [ht, hf]
  simp only [hperm, Bool.false_eq_true, if_false]
  refine ⟨fun h50 => ?_, fun h0 => ?_, fun hlt h0 => ?_⟩
  · rw [if_pos h50]
  · rw [if_neg (by omega), if_pos (by simpa using h0)]
  · rw [if_neg (by omega), if_neg (by simpa using h0), if_pos hlt]

/-- C10, witness: a one-byte body and an empty body are rejected with the
matching errors and no state change. -/
theorem C10_size_gates_witness :
    upload collab1 sess1 emptyState ⟨some "private", some ⟨"s.cab", "x"⟩, "a"⟩ =
      (.internalError "File too small, mimimum is 1k" 402, emptyState) ∧
    upload collab1 sess1 emptyState ⟨some "private", some ⟨"s.cab", ""⟩, "a"⟩ =
      (.internalError "File has no content" 402, emptyState) := by
  constructor
  · exact (C10_size_gates collab1 sess1 emptyState _ "private" ⟨"s.cab", "x"⟩
      rfl rfl (by decide)).2.2 (by decide) (by decide)
  · exact (C10_size_gates collab1 sess1 emptyState _ "private" ⟨"s.cab", ""⟩
      rfl rfl (by decide)).2.1 (by decide)

/-- C4: promoting or demoting without the QA capability fails with a
permission error and mutates nothing (src/lvfs.py lines 725-726), while
the same call with the QA capability, made by the owning group or by the
administrator, for a valid target and an existing package, succeeds with
functioning signing and a subsequent lookup returns the new target
(src/lvfs.py lines 729-770). -/
theorem C4_promote_authorization (c : Collab) (sess : Session) (st : DbState)
    (fwid target : String) :
    (sess.qa_capability = false →
      firmware_promote c sess st fwid target =
        (.permissionDenied "Unable to promote as not QA", st, [])) ∧
    (∀ item, sess.qa_capability = true →
      (["stable", "testing", "private", "embargo"].contains target) = true →
      get_item st fwid = some item →
      (sess.username = "admin" ∨ item.qa_group = sess.qa_group) →
      c.keyAvailable = true →
      firmware_promote c sess st fwid target =
        (.ok fwid, set_target st fwid target, promoteFeeds item.qa_group target) ∧
      (get_item (set_target st fwid target) fwid).map (fun fw => fw.target) =
        some target) := by
  constructor
  · intro hqa
    unfold firmware_promote
    rw [hqa]
    rfl
  · intro item hqa htv hget hgrp hkey
    have hcommit : firmware_promote_commit c st (some item) fwid target =
        (.ok fwid, set_target st fwid target, promoteFeeds item.qa_group target) := by
      unfold firmware_promote_commit
      rw [hkey]
      rfl
    have hfind : (item.fwid == fwid) = true := by
      have := List.find?_some hget
      simpa using this
    have hpost : (get_item (set_target st fwid target) fwid).map
        (fun fw => fw.target) = some target := by
      unfold get_item set_target
      rw [find?_map_retarget st.firmwares fwid target item
        (by simpa [get_item] using hget)]
      unfold retarget
      rw [if_pos hfind]
      rfl
    refine ⟨?_, hpost⟩
    unfold firmware_promote
    rw [hqa, htv]
    simp only [Bool.not_true, Bool.false_eq_true, if_false]
    rcases hgrp with hadmin | hgrp
    · rw [if_pos (by simpa using hadmin)]
      rw [hget]
      exact hcommit
    · by_cases hadmin : (sess.username == "admin") = true
      · rw [if_pos hadmin]
        rw [hget]
        exact hcommit
      · rw [if_neg hadmin, hget]
        show (if (item.qa_group != sess.qa_group) = true
            then (Outcome.permissionDenied ("No QA access to " ++ fwid), st,
              ([] : List String))
            else firmware_promote_commit c st (some item) fwid target) = _
        rw [if_neg (by simp [hgrp])]
        exact hcommit

/-- C4, witness: promoting the stable package to testing is refused for
the non-QA session and succeeds for the QA session of the owning group,
after which the lookup reports testing. -/
theorem C4_promote_authorization_witness :
    firmware_promote collab1 sess1 stStable "f1" "testing" =
      (.permissionDenied "Unable to promote as not QA", stStable, []) ∧
    firmware_promote collab1 sessQA stStable "f1" "testing" =
      (.ok "f1", set_target stStable "f1" "testing",
        promoteFeeds "g-vendor" "testing") ∧
    (get_item (set_target stStable "f1" "testing") "f1").map
      (fun fw => fw.target) = some "testing" := by
  refine ⟨(C4_promote_authorization collab1 sess1 stStable "f1" "testing").1 rfl,
    ((C4_promote_authorization collab1 sessQA stStable "f1" "testing").2
      fwStable rfl (by decide) (by decide) (Or.inr rfl) rfl).1,
    ((C4_promote_authorization collab1 sessQA stStable "f1" "testing").2
      fwStable rfl (by decide) (by decide) (Or.inr rfl) rfl).2⟩

/-- A successful promote-commit pins down every component of the result:
the item was found, the redirect carries the requested hash, the state is
the retargeted table, and the regenerated feeds are those of the owning
group plus the new-target scope. -/
lemma promote_commit_ok (c : Collab) (st : DbState)
    (item? : Option LvfsFirmware) (fwid target fid : String) (st' : DbState)
    (feeds : List String)
    (h : firmware_promote_commit c st item? fwid target = (.ok fid, st', feeds)) :
    ∃ item, item? = some item ∧ fid = fwid ∧ st' = set_target st fwid target ∧
      feeds = promoteFeeds item.qa_group target := by
  unfold firmware_promote_commit at h
  cases item? with
  | none => exact absurd h (by simp)
  | some item =>
    by_cases hkey : c.keyAvailable = true
    · simp only [hkey, Bool.not_true, Bool.false_eq_true, if_false,
        Prod.mk.injEq] at h
      obtain ⟨h1, h2, h3⟩ := h
      injection h1 with h1
      exact ⟨item, rfl, h1.symm, h2.symm, h3.symm⟩
    · have hkey' : c.keyAvailable = false := by simpa using hkey
      simp only [hkey', Bool.not_false, if_true, Prod.mk.injEq] at h
      exact absurd h.1 (by simp)

/-- C5, amended: a successful promotion regenerates the feed of the
owning group of the fetched record, plus the global stable-and-testing
feed when the new target is stable and the global testing feed when the
new target is testing; the previous target plays no part (src/lvfs.py
lines 748-761). -/
theorem C5_feed_regeneration_amended (c : Collab) (sess : Session)
    (st : DbState) (fwid target fid : String) (st' : DbState)
    (feeds : List String)
    (h : firmware_promote c sess st fwid target = (.ok fid, st', feeds)) :
    ∃ item, get_item st fwid = some item ∧
      feeds = metadata_update_qa_group item.qa_group ++
        (if target == "stable" then metadata_update_targets ["stable", "testing"]
         else if target == "testing" then metadata_update_targets ["testing"]
         else []) := by
  unfold firmware_promote at h
  split at h
  · exact absurd h (by simp)
  · split at h
    · exact absurd h (by simp)
    · split at h
      · obtain ⟨item, hitem, -, -, hfeeds⟩ := promote_commit_ok _ _ _ _ _ _ _ _ h
        exact ⟨item, hitem, by simpa [promoteFeeds] using hfeeds⟩
      · simp only [] at h
        split at h
        · exact absurd h (by simp)
        · rename_i item heq
          split at h
          · exact absurd h (by simp)
          · obtain ⟨item2, hitem2, -, -, hfeeds⟩ :=
              promote_commit_ok _ _ _ _ _ _ _ _ h
            injection hitem2 with hitem2
            subst hitem2
            exact ⟨item, heq, by simpa [promoteFeeds] using hfeeds⟩

/-- C5, witness for the amended theorem: promoting the stable package to
testing regenerates the group feed and the global testing feed. -/
theorem C5_feed_regeneration_amended_witness :
    ∃ item, get_item stStable "f1" = some item ∧
      (firmware_promote collab1 sessQA stStable "f1" "testing").2.2 =
        metadata_update_qa_group item.qa_group ++
        metadata_update_targets ["testing"] := by
  obtain ⟨item, hget, hfeeds⟩ :=
    C5_feed_regeneration_amended collab1 sessQA stStable "f1" "testing" "f1"
      (firmware_promote collab1 sessQA stStable "f1" "testing").2.1
      (firmware_promote collab1 sessQA stStable "f1" "testing").2.2 rfl
  exact ⟨item, hget, by simpa using hfeeds⟩

/-- C3, amended: fatal errors raised in the validation phase of a write
request mutate no durable state.  For upload this covers every error
before the artifact save of src/lvfs.py line 410; for promotion, the
capability, target-validity and owning-group gates; for deletion, the
existence and permission gates.  Errors raised after the first durable
write (the missing-content-member error, signing failures, feed
failures) can leave partial state behind, as the counterexample
shows. -/
theorem C3_no_mutation_amended (c : Collab) (sess : Session) (st : DbState) :
    (∀ req o, uploadChecks c sess st req = .error o →
      upload c sess st req = (o, st)) ∧
    (∀ fwid target, sess.qa_capability = false →
      firmware_promote c sess st fwid target =
        (.permissionDenied "Unable to promote as not QA", st, [])) ∧
    (∀ fwid target, sess.qa_capability = true →
      (["stable", "testing", "private", "embargo"].contains target) = false →
      firmware_promote c sess st fwid target =
        (.internalError ("Target " ++ target ++ " invalid") 402, st, [])) ∧
    (∀ fwid target item, sess.qa_capability = true →
      (["stable", "testing", "private", "embargo"].contains target) = true →
      (sess.username == "admin") = false → get_item st fwid = some item →
      (item.qa_group != sess.qa_group) = true →
      firmware_promote c sess st fwid target =
        (.permissionDenied ("No QA access to " ++ fwid), st, [])) ∧
    (∀ fwid, get_item st fwid = none →
      firmware_delete_force c sess st fwid =
        (.internalError ("No firmware file with hash " ++ fwid ++ " exists") 402,
          st, [])) ∧
    (∀ fwid item, get_item st fwid = some item →
      (sess.username != "admin" && item.qa_group != sess.qa_group) = true →
      firmware_delete_force c sess st fwid =
        (.permissionDenied ("No QA access to " ++ fwid), st, [])) ∧
    (∀ fwid item, get_item st fwid = some item →
      (sess.username != "admin" && item.qa_group != sess.qa_group) = false →
      sess.qa_capability = false → (item.target == "stable") = true →
      firmware_delete_force c sess st fwid =
        (.permissionDenied "Unable to delete stable firmware as not QA",
          st, [])) := by
  refine ⟨?_, ?_, ?_, ?_, ?_, ?_, ?_⟩
  · intro req o h
    unfold upload
    rw [h]
  · intro fwid target hqa
    unfold firmware_promote
    rw [hqa]
    rfl
  · intro fwid target hqa htv
    unfold firmware_promote
    rw [hqa, htv]
    rfl
  · intro fwid target item hqa htv hadmin hget hgrp
    unfold firmware_promote
    rw [hqa, htv]
    simp only [Bool.not_true, Bool.false_eq_true, if_false]
    rw [if_neg (by simp [hadmin]), hget]
    show (if (item.qa_group != sess.qa_group) = true
        then (Outcome.permissionDenied ("No QA access to " ++ fwid), st,
          ([] : List String))
        else firmware_promote_commit c st (some item) fwid target) = _
    rw [if_pos hgrp]
  · intro fwid hget
    unfold firmware_delete_force
    rw [hget]
  · intro fwid item hget hperm
    unfold firmware_delete_force
    rw [hget]
    show (if (sess.username != "admin" && item.qa_group != sess.qa_group) = true
        then (Outcome.permissionDenied ("No QA access to " ++ fwid), st,
          ([] : List String))
        else _) = _
    rw [if_pos hperm]
  · intro fwid item hget hperm hqa htgt
    unfold firmware_delete_force
    rw [hget]
    show (if (sess.username != "admin" && item.qa_group != sess.qa_group) = true
        then (Outcome.permissionDenied ("No QA access to " ++ fwid), st,
          ([] : List String))
        else _) = _
    rw [if_neg (by simp [hperm]), if_pos (by simp [hqa, htgt])]

/-- C3, amended, witness: a too-small upload, a non-QA promotion and a
deletion of a missing id each leave the empty repository untouched. -/
theorem C3_no_mutation_amended_witness :
    upload collab1 sess1 emptyState ⟨some "private", some ⟨"s.cab", "x"⟩, "a"⟩ =
      (.internalError "File too small, mimimum is 1k" 402, emptyState) ∧
    firmware_promote collab1 sess1 emptyState "f1" "stable" =
      (.permissionDenied "Unable to promote as not QA", emptyState, []) ∧
    firmware_delete_force collab1 sessQA emptyState "f1" =
      (.internalError "No firmware file with hash f1 exists" 402,
        emptyState, []) := by
  refine ⟨(C3_no_mutation_amended collab1 sess1 emptyState).1 _ _ rfl,
    (C3_no_mutation_amended collab1 sess1 emptyState).2.1 "f1" "stable" rfl,
    ?_⟩
  have h := (C3_no_mutation_amended collab1 sessQA emptyState).2.2.2.2.1 "f1" rfl
  simpa using h

set_option maxRecDepth 100000 in
/-- C7, counterexample: an archive containing no inf file at all is
ingested successfully, because the whole driver-info validation block of
src/lvfs.py lines 309-350 sits under the check that a *.inf member
exists; no Version:Class or Version:ClassGuid requirement applies to such
an archive. -/
theorem C7_class_check_counterexample :
    (upload collabNoInf sess1 emptyState req1).1 = Outcome.ok "h1024" ∧
    collabNoInf.parseCab testData = Except.ok arcNoInf ∧
    findFile arcNoInf "*.inf" = none := by
  refine ⟨by decide, rfl, by decide⟩

/-- A normalization failure is the modelled ValueError, never a success
redirect. -/
lemma normalizeFwVersion_error_not_ok (v : String) (o : Outcome)
    (h : normalizeFwVersion v = .error o) : ∀ fid, o ≠ .ok fid := by
  unfold normalizeFwVersion at h
  repeat' split at h
  all_goals first
    | exact Except.noConfusion h
    | (injection h with h2
       subst h2
       intro fid
       simp
       done)
    | (subst h
       intro fid
       simp
       done)

/-- A DriverVer parse failure is never a success redirect. -/
lemma infDriverVer_error_not_ok (inf : List (String × List (String × String)))
    (o : Outcome) (h : infDriverVer inf = .error o) : ∀ fid, o ≠ .ok fid := by
  unfold infDriverVer at h
  repeat' split at h
  all_goals first
    | exact Except.noConfusion h
    | (injection h with h2
       subst h2
       intro fid
       simp
       done)
    | (subst h
       intro fid
       simp
       done)

/-- A FirmwareVersion normalization failure is never a success
redirect. -/
lemma infFwVersion_error_not_ok (inf : List (String × List (String × String)))
    (o : Outcome) (h : infFwVersion inf = .error o) : ∀ fid, o ≠ .ok fid := by
  unfold infFwVersion at h
  repeat' split at h
  all_goals first
    | exact Except.noConfusion h
    | exact normalizeFwVersion_error_not_ok _ _ h

/-- An inf-validation failure is never a success redirect. -/
lemma infChecks_error_not_ok (c : Collab) (arc : List CabFile) (o : Outcome)
    (h : infChecks c arc = .error o) : ∀ fid, o ≠ .ok fid := by
  unfold infChecks at h
  repeat' split at h
  all_goals first
    | exact Except.noConfusion h
    | (rename_i heq
       injection h with h2
       subst h2
       first
         | exact infDriverVer_error_not_ok _ _ heq
         | exact infFwVersion_error_not_ok _ _ heq)
    | (rename_i heq
       subst h
       first
         | exact infDriverVer_error_not_ok _ _ heq
         | exact infFwVersion_error_not_ok _ _ heq)
    | (injection h with h2
       subst h2
       intro fid
       simp
       done)
    | (subst h
       intro fid
       simp
       done)

/-- A metainfo-validation failure is never a success redirect. -/
lemma processMetainfos_error_not_ok (c : Collab) (st : DbState)
    (fwvi : Option String) (cfs : List CabFile) (o : Outcome)
    (h : processMetainfos c st fwvi cfs = .error o) : ∀ fid, o ≠ .ok fid := by
  induction cfs with
  | nil => exact absurd h (by simp [processMetainfos])
  | cons cf rest ih =>
    unfold processMetainfos at h
    repeat' split at h
    all_goals first
      | exact Except.noConfusion h
      | (rename_i heq
         injection h with h2
         subst h2
         exact ih heq)
      | (rename_i heq
         subst h
         exact ih heq)
      | (injection h with h2
         subst h2
         intro fid
         simp
         done)
      | (subst h
         intro fid
         simp
         done)

/-- A single checksum-fixing failure is never a success redirect. -/
lemma fixOne_error_not_ok (c : Collab) (data : String)
    (arc : List CabFile) (comp : Component) (o : Outcome)
    (h : fixOne c data arc comp = .error o) : ∀ fid, o ≠ .ok fid := by
  unfold fixOne at h
  simp only [] at h
  repeat' split at h
  all_goals first
    | exact h.elim
    | exact Except.noConfusion h
    | (injection h with h2
       subst h2
       intro fid
       simp
       done)
    | (subst h
       intro fid
       simp
       done)

/-- A checksum-fixing failure is never a success redirect. -/
lemma fixChecksums_error_not_ok (c : Collab) (data : String)
    (arc : List CabFile) (comps : List Component) (o : Outcome)
    (h : fixChecksums c data arc comps = .error o) : ∀ fid, o ≠ .ok fid := by
  induction comps generalizing arc with
  | nil => exact absurd h (by simp [fixChecksums])
  | cons comp rest ih =>
    unfold fixChecksums at h
    repeat' split at h
    all_goals first
      | exact Except.noConfusion h
      | (rename_i heq
         injection h with h2
         subst h2
         first
           | exact fixOne_error_not_ok _ _ _ _ _ heq
           | exact ih _ heq)
      | (rename_i heq
         subst h
         first
           | exact fixOne_error_not_ok _ _ _ _ _ heq
           | exact ih _ heq)

/-- An upload validation-phase failure is never a success redirect. -/
lemma uploadChecks_error_not_ok (c : Collab) (sess : Session) (st : DbState)
    (req : UploadRequest) (o : Outcome)
    (h : uploadChecks c sess st req = .error o) : ∀ fid, o ≠ .ok fid := by
  unfold uploadChecks at h
  simp only [] at h
  repeat' split at h
  all_goals first
    | exact h.elim
    | exact Except.noConfusion h
    | (rename_i heq
       injection h with h2
       subst h2
       first
         | exact infChecks_error_not_ok _ _ _ heq
         | exact processMetainfos_error_not_ok _ _ _ _ _ heq)
    | (rename_i heq
       subst h
       first
         | exact infChecks_error_not_ok _ _ _ heq
         | exact processMetainfos_error_not_ok _ _ _ _ _ heq)
    | (injection h with h2
       subst h2
       intro fid
       simp
       done)
    | (subst h
       intro fid
       simp
       done)

/-- Replacing the first content checksum leaves a content entry findable,
and the found entry is the replacement. -/
lemma find?_replaceFirstContent (cs : List Checksum) (c0 c' : Checksum)
    (hfound : cs.find? (fun cs => cs.target == "content") = some c0)
    (hc' : (c'.target == "content") = true) :
    (replaceFirstContent cs c').find? (fun cs => cs.target == "content") =
      some c' := by
  induction cs with
  | nil => exact absurd hfound (by simp)
  | cons hd tl ih =>
    unfold replaceFirstContent
    by_cases hp : (hd.target == "content") = true
    · rw [if_pos hp]
      simp only [List.find?_cons, hc']
    · rw [if_neg hp]
      have hp' : (hd.target == "content") = false := by simpa using hp
      simp only [List.find?_cons, hp'] at hfound ⊢
      exact ih hfound

/-- Appending a content entry to a list with no content entry makes it the
first one found. -/
lemma find?_append_single (cs : List Checksum) (c' : Checksum)
    (hnone : cs.find? (fun cs => cs.target == "content") = none)
    (hc' : (c'.target == "content") = true) :
    (cs ++ [c']).find? (fun cs => cs.target == "content") = some c' := by
  induction cs with
  | nil => simp [List.find?_cons, hc']
  | cons hd tl ih =>
    have hp : (hd.target == "content") = false := by
      by_contra hcon
      have : (hd.target == "content") = true := by
        revert hcon
        cases hd.target == "content" <;> simp
      simp [List.find?_cons, this] at hnone
    simp only [List.find?_cons, hp] at hnone
    simp only [List.cons_append, List.find?_cons, hp]
    exact ih hnone

/-- The fields of a child record built by mdOf, expressed through the
head accessors of the source component. -/
lemma mdOf_fields (fwid cc : String) (comp : Component) (md : LvfsFirmwareMd)
    (h : mdOf fwid cc comp = some md) :
    md.cid = comp.id ∧ md.guid = headGuid comp ∧
    md.version = headVersion comp ∧
    ∃ csum, contentChecksum? comp = some csum ∧
      md.checksum_contents = csum.value ∧
      md.filename_contents = csum.filename := by
  unfold mdOf at h
  split at h
  · rename_i prov ptl rel rtl hprov hrel
    split at h
    · exact Option.noConfusion h
    · rename_i csum hcsum
      injection h with h
      subst h
      refine ⟨rfl, ?_, ?_, csum, ?_, rfl, rfl⟩
      · simp [headGuid, hprov]
      · simp [headVersion, hrel]
      · simp [contentChecksum?, hrel, hcsum]
  · exact Option.noConfusion h

/-- mdsOf succeeds exactly by building each child record in order. -/
lemma mdsOf_spec (fwid cc : String) (comps : List Component)
    (mds : List LvfsFirmwareMd) (h : mdsOf fwid cc comps = some mds) :
    List.Forall₂ (fun comp md => mdOf fwid cc comp = some md) comps mds := by
  induction comps generalizing mds with
  | nil =>
    unfold mdsOf at h
    injection h with h
    subst h
    exact List.Forall₂.nil
  | cons comp rest ih =>
    unfold mdsOf at h
    split at h
    · rename_i md mds0 hmd hmds
      injection h with h
      subst h
      exact List.Forall₂.cons hmd (ih _ hmds)
    · exact Option.noConfusion h

/-- Every component accepted by the metainfo loop passed its structural
checks: a provide and a release exist, the inf version guard held, and
neither the (guid, version) pair nor a rebound component id exists in the
repository. -/
lemma processMetainfos_ok_facts (c : Collab) (st : DbState)
    (fwvi : Option String) (cfs : List CabFile) (apps : List Component)
    (h : processMetainfos c st fwvi cfs = .ok apps) :
    ∀ comp ∈ apps, comp.provides ≠ [] ∧ comp.releases ≠ [] ∧
      fwviMismatch fwvi (headVersion comp) = false ∧
      ((mdsJoin st.firmwares).any (fun md =>
        md.guid == headGuid comp && md.version == headVersion comp)) = false ∧
      ((mdsJoin st.firmwares).find? (fun md =>
        md.cid == comp.id && md.guid != headGuid comp)) = none := by
  induction cfs generalizing apps with
  | nil =>
    unfold processMetainfos at h
    injection h with h
    subst h
    intro comp hmem
    exact absurd hmem (by simp)
  | cons cf rest ih =>
    unfold processMetainfos at h
    split at h
    · exact Except.noConfusion h
    · exact Except.noConfusion h
    · rename_i comp hparse
      split at h
      · exact Except.noConfusion h
      · split at h
        · exact Except.noConfusion h
        · exact Except.noConfusion h
        · rename_i guid0 ptl rel0 rtl hprov hrel
          split at h
          · exact Except.noConfusion h
          · rename_i hmis
            split at h
            · exact Except.noConfusion h
            · rename_i hdup
              split at h
              · exact Except.noConfusion h
              · rename_i hfind
                split at h
                · exact Except.noConfusion h
                · rename_i comps hrest
                  injection h with h
                  subst h
                  intro comp' hmem
                  rcases List.mem_cons.mp hmem with hc | hmem'
                  · subst hc
                    have hguid : headGuid comp' = guid0 := by
                      simp [headGuid, hprov]
                    have hver : headVersion comp' = rel0.version := by
                      simp [headVersion, hrel]
                    refine ⟨by simp [hprov], by simp [hrel], ?_, ?_, ?_⟩
                    · rw [hver]
                      simpa using hmis
                    · rw [hguid, hver]
                      simpa using hdup
                    · rw [hguid]
                      exact hfind
                  · exact ih _ hrest comp' hmem'

/-- One checksum-fixing step only ever appends members to the archive and
relates its component to the output through fixRel over the grown
archive. -/
lemma fixOne_spec (c : Collab) (data : String) (arc arc2 : List CabFile)
    (comp comp' : Component)
    (h : fixOne c data arc comp = .ok (arc2, comp')) :
    (∀ f ∈ arc, f ∈ arc2) ∧ fixRel c arc2 comp comp' := by
  unfold fixOne at h
  simp only [] at h
  split at h
  · exact Except.noConfusion h
  · rename_i release rels hrel
    split at h
    · exact Except.noConfusion h
    · rename_i fw_data hfindfw
      have hmemfw : fw_data ∈ arc := List.mem_of_find?_eq_some hfindfw
      have hglob := List.find?_some hfindfw
      have hrest : fixRel c arc2 comp comp' →
          (∀ f ∈ arc, f ∈ arc2) → (∀ f ∈ arc, f ∈ arc2) ∧
            fixRel c arc2 comp comp' := fun a b => ⟨b, a⟩
      have hcontent : ∀ (arcX : List CabFile), fw_data ∈ arcX →
          fixRel c arcX comp
            { comp with releases :=
                { release with
                  checksums :=
                    if (release.checksums.find?
                        (fun cs => cs.target == "content")).isSome = true then
                      replaceFirstContent release.checksums
                        { (release.checksums.find?
                            (fun cs => cs.target == "content")).getD
                              ⟨"content", "firmware.bin", "", ""⟩ with
                          kind := "sha1", value := c.sha1 fw_data.contents }
                    else release.checksums ++
                      [{ (release.checksums.find?
                          (fun cs => cs.target == "content")).getD
                            ⟨"content", "firmware.bin", "", ""⟩ with
                        kind := "sha1", value := c.sha1 fw_data.contents }],
                  size_installed := some fw_data.contents.length,
                  size_download := some data.length } :: rels } := by
        intro arcX hmemX
        refine ⟨rfl, rfl, by simp [headVersion, hrel], fw_data,
          ((release.checksums.find? (fun cs => cs.target == "content")).getD
            ⟨"content", "firmware.bin", "", ""⟩).filename,
          hmemX, hglob, ?_, ?_⟩
        · cases hcs : release.checksums.find?
              (fun cs => cs.target == "content") with
          | none =>
            left
            simp [contentFilenameSpec, contentChecksum?, hrel, hcs]
          | some cs =>
            right
            exact ⟨cs, by simp [contentChecksum?, hrel, hcs], by simp [hcs]⟩
        · cases hcs : release.checksums.find?
              (fun cs => cs.target == "content") with
          | none =>
            simp only [contentChecksum?, hcs, Option.isSome_none,
              Bool.false_eq_true, if_false, Option.getD_none]
            exact find?_append_single _ _ hcs rfl
          | some cs =>
            have htgt := List.find?_some hcs
            simp only [] at htgt
            have htgt' : cs.target = "content" := by simpa using htgt
            simp only [contentChecksum?, hcs, Option.isSome_some, if_true,
              Option.getD_some]
            rw [find?_replaceFirstContent _ cs _ hcs (by simpa using htgt)]
            simp [htgt']
      split at h
      · split at h
        · injection h with h
          rw [Prod.mk.injEq] at h
          obtain ⟨h1, h2⟩ := h
          subst h1
          subst h2
          refine ⟨fun f hf => List.mem_append_left _ hf, ?_⟩
          exact hcontent _ (List.mem_append_left _ hmemfw)
        · exact Except.noConfusion h
      · split at h
        · injection h with h
          rw [Prod.mk.injEq] at h
          obtain ⟨h1, h2⟩ := h
          subst h1
          subst h2
          exact ⟨fun f hf => hf, hcontent _ hmemfw⟩
        · exact Except.noConfusion h

/-- The cf-membership half of fixRel is monotone in the archive. -/
lemma fixRel_mono (c : Collab) (a1 a2 : List CabFile)
    (hsub : ∀ f ∈ a1, f ∈ a2) (comp comp' : Component)
    (h : fixRel c a1 comp comp') : fixRel c a2 comp comp' := by
  obtain ⟨h1, h2, h3, cf, fn, hmem, hg, hspec, hcs⟩ := h
  exact ⟨h1, h2, h3, cf, fn, hsub cf hmem, hg, hspec, hcs⟩

/-- The checksum-fixing loop only ever appends members to the archive,
and relates each input component to its output pointwise through
fixRel. -/
lemma fixChecksums_spec (c : Collab) (data : String) :
    ∀ (comps : List Component) (arc arcF : List CabFile)
      (comps' : List Component),
      fixChecksums c data arc comps = .ok (arcF, comps') →
      (∀ f ∈ arc, f ∈ arcF) ∧ List.Forall₂ (fixRel c arcF) comps comps' := by
  intro comps
  induction comps with
  | nil =>
    intro arc arcF comps' h
    unfold fixChecksums at h
    injection h with h
    rw [Prod.mk.injEq] at h
    obtain ⟨h1, h2⟩ := h
    subst h1
    subst h2
    exact ⟨fun f hf => hf, List.Forall₂.nil⟩
  | cons comp rest ih =>
    intro arc arcF comps' h
    unfold fixChecksums at h
    split at h
    · exact Except.noConfusion h
    · rename_i arc2 comp2 hone
      split at h
      · exact Except.noConfusion h
      · rename_i arcF0 comps0 hrec
        injection h with h
        rw [Prod.mk.injEq] at h
        obtain ⟨h1, h2⟩ := h
        subst h1
        subst h2
        obtain ⟨hsub1, hfix1⟩ := fixOne_spec _ _ _ _ _ _ hone
        obtain ⟨hsub2, hforall⟩ := ih _ _ _ hrec
        refine ⟨fun f hf => hsub2 f (hsub1 f hf), ?_⟩
        exact List.Forall₂.cons (fixRel_mono _ _ _ hsub2 _ _ hfix1) hforall

/-- When an inf member exists and the inf block succeeds, the Class and
ClassGuid keys carried exactly the required values; the normalized
firmware version is the one the block returned. -/
lemma infChecks_ok_required (c : Collab) (arc : List CabFile) (cf : CabFile)
    (fwvi : Option String) (fwvd : Option (String × String))
    (hfind : findFile arc "*.inf" = some cf)
    (h : infChecks c arc = .ok (fwvi, fwvd)) :
    infGet (c.parseInf cf.contents) "Version" "Class" = some "Firmware" ∧
    infGet (c.parseInf cf.contents) "Version" "ClassGuid" =
      some FIRMWARE_CLASS_GUID ∧
    infFwVersion (c.parseInf cf.contents) = .ok fwvi := by
  unfold infChecks at h
  rw [hfind] at h
  simp only [] at h
  split at h
  · exact Except.noConfusion h
  · split at h
    · exact Except.noConfusion h
    · rename_i cls hcls
      split at h
      · exact Except.noConfusion h
      · rename_i hclsv
        split at h
        · exact Except.noConfusion h
        · rename_i cg hcg
          split at h
          · exact Except.noConfusion h
          · rename_i hcgv
            split at h
            · exact Except.noConfusion h
            · rename_i fwvd0 hdrv
              split at h
              · exact Except.noConfusion h
              · rename_i fwvi0 hfwv
                injection h with h
                rw [Prod.mk.injEq] at h
                obtain ⟨h1, h2⟩ := h
                subst h1
                subst h2
                have hcls' : cls = "Firmware" := by simpa using hclsv
                have hcg' : cg = FIRMWARE_CLASS_GUID := by simpa using hcgv
                subst hcls'
                subst hcg'
                exact ⟨hcls, hcg, hfwv⟩

/-- A successful validation phase pins down the context: the file was
present, the archive is its parse, the inf block succeeded with the
normalized firmware version that the metainfo loop then used, and the
accepted components are exactly the loop output over the metainfo
members. -/
lemma uploadChecks_ok_facts (c : Collab) (sess : Session) (st : DbState)
    (req : UploadRequest) (ctx : UploadCtx)
    (h : uploadChecks c sess st req = .ok ctx) :
    ∃ file, req.file = some file ∧ ctx.data = file.data ∧
      ctx.fwid = c.sha1 file.data ∧
      c.parseCab file.data = .ok ctx.arc ∧
      ∃ fwvi fwvd, infChecks c ctx.arc = .ok (fwvi, fwvd) ∧
        processMetainfos c st fwvi (findFiles ctx.arc "*.metainfo.xml") =
          .ok ctx.apps := by
  unfold uploadChecks at h
  simp only [] at h
  split at h
  · exact Except.noConfusion h
  · split at h
    · exact Except.noConfusion h
    · rename_i file hfile
      split at h
      · exact Except.noConfusion h
      · split at h
        · exact Except.noConfusion h
        · split at h
          · exact Except.noConfusion h
          · split at h
            · exact Except.noConfusion h
            · split at h
              · exact Except.noConfusion h
              · split at h
                · exact Except.noConfusion h
                · exact Except.noConfusion h
                · rename_i arc hparse
                  split at h
                  · exact Except.noConfusion h
                  · rename_i pr fwvi fwvd hinf
                    split at h
                    · exact Except.noConfusion h
                    · rename_i cf0 cfs0 hcfs
                      split at h
                      · exact Except.noConfusion h
                      · rename_i apps hproc
                        injection h with h
                        subst h
                        exact ⟨file, hfile, rfl, rfl, hparse, fwvi, fwvd,
                          hinf, hproc⟩

/-- A successful upload decomposes into a successful validation phase, a
successful checksum-fixing pass, successful child-record construction, an
available signing key, and the insertion of exactly one new firmware
record at the head of the table together with the saved archive at the
head of the download store. -/
lemma upload_ok_decomp (c : Collab) (sess : Session) (st : DbState)
    (req : UploadRequest) (fid : String) (st' : DbState)
    (h : upload c sess st req = (.ok fid, st')) :
    ∃ ctx arcF apps' mds,
      uploadChecks c sess st req = .ok ctx ∧
      fixChecksums c ctx.data ctx.arc ctx.apps = .ok (arcF, apps') ∧
      mdsOf ctx.fwid (c.sha1 (c.saveCab arcF)) apps' = some mds ∧
      c.keyAvailable = true ∧ fid = ctx.fwid ∧
      st'.firmwares = mkFwobj sess ctx mds :: st.firmwares ∧
      st'.downloadDir = (newFilenameOf ctx, c.saveCab arcF) :: st.downloadDir := by
  unfold upload at h
  split at h
  · rename_i o heq
    rw [Prod.mk.injEq] at h
    exact absurd h.1 (uploadChecks_error_not_ok _ _ _ _ _ heq fid)
  · rename_i ctx heq
    unfold uploadCommit at h
    simp only [] at h
    split at h
    · rename_i o heqFix
      rw [Prod.mk.injEq] at h
      exact absurd h.1 (fixChecksums_error_not_ok _ _ _ _ _ heqFix fid)
    · rename_i arcF apps' heqFix
      split at h
      · rw [Prod.mk.injEq] at h
        exact absurd h.1 (by simp)
      · rename_i mds heqMds
        split at h
        · rw [Prod.mk.injEq] at h
          exact absurd h.1 (by simp)
        · rename_i hkey
          rw [Prod.mk.injEq] at h
          obtain ⟨h1, h2⟩ := h
          injection h1 with h1
          subst h2
          exact ⟨ctx, arcF, apps', mds, heq, heqFix, heqMds,
            by simpa using hkey, h1.symm, rfl, rfl⟩

/-- Any upload either leaves the firmware table unchanged or inserts
exactly one new record built through the validated context, the fixed
components and the child-record constructor. -/
lemma upload_new_package (c : Collab) (sess : Session) (st : DbState)
    (req : UploadRequest) (o : Outcome) (st' : DbState)
    (h : upload c sess st req = (o, st')) :
    st'.firmwares = st.firmwares ∨
    ∃ ctx arcF apps' mds,
      uploadChecks c sess st req = .ok ctx ∧
      fixChecksums c ctx.data ctx.arc ctx.apps = .ok (arcF, apps') ∧
      mdsOf ctx.fwid (c.sha1 (c.saveCab arcF)) apps' = some mds ∧
      st'.firmwares = mkFwobj sess ctx mds :: st.firmwares := by
  unfold upload at h
  split at h
  · rw [Prod.mk.injEq] at h
    left
    rw [← h.2]
  · rename_i ctx heq
    unfold uploadCommit at h
    simp only [] at h
    split at h
    · rw [Prod.mk.injEq] at h
      left
      rw [← h.2]
    · rename_i arcF apps' heqFix
      split at h
      · rw [Prod.mk.injEq] at h
        left
        rw [← h.2]
      · rename_i mds heqMds
        split at h
        · rw [Prod.mk.injEq] at h
          right
          exact ⟨ctx, arcF, apps', mds, heq, heqFix, heqMds, by rw [← h.2]⟩
        · rw [Prod.mk.injEq] at h
          right
          exact ⟨ctx, arcF, apps', mds, heq, heqFix, heqMds, by rw [← h.2]⟩

/-- Composition of two pointwise list relations. -/
lemma forall2_trans {α β γ : Type} {R : α → β → Prop} {S : β → γ → Prop}
    {T : α → γ → Prop} (hcomp : ∀ a b cc, R a b → S b cc → T a cc) :
    ∀ {l1 : List α} {l2 : List β} {l3 : List γ},
      List.Forall₂ R l1 l2 → List.Forall₂ S l2 l3 → List.Forall₂ T l1 l3 := by
  intro l1 l2 l3 h12 h23
  induction h12 generalizing l3 with
  | nil =>
    cases h23
    exact List.Forall₂.nil
  | cons hab htl ih =>
    cases h23 with
    | cons hbc htl2 =>
      exact List.Forall₂.cons (hcomp _ _ _ hab hbc) (ih htl2)

/-- Every member of the right list of a pointwise relation has a related
member on the left. -/
lemma forall2_mem_right {α β : Type} {R : α → β → Prop} :
    ∀ {l1 : List α} {l2 : List β}, List.Forall₂ R l1 l2 →
      ∀ b ∈ l2, ∃ a ∈ l1, R a b := by
  intro l1 l2 h
  induction h with
  | nil => intro b hb; exact absurd hb (by simp)
  | cons hab htl ih =>
    intro b hb
    rcases List.mem_cons.mp hb with hb | hb
    · subst hb
      exact ⟨_, List.mem_cons_self _ _, hab⟩
    · obtain ⟨a, ha, hr⟩ := ih b hb
      exact ⟨a, List.mem_cons_of_mem _ ha, hr⟩

/-- C1: every successfully ingested package stores, for each accepted
descriptor in order, a child record whose content checksum is the sha1 of
the bytes of an actual member of the saved archive matching the content
filename, the filename being the declared one or the synthesized
firmware.bin; the checksum value submitted in the descriptor is never
consulted, and a missing member aborts ingestion, so success implies the
member exists (src/lvfs.py lines 412-429 and 504-507). -/
theorem C1_content_checksum_recomputed (c : Collab) (sess : Session)
    (st : DbState) (req : UploadRequest) (fid : String) (st' : DbState)
    (h : upload c sess st req = (.ok fid, st')) :
    ∃ ctx arcF, uploadChecks c sess st req = .ok ctx ∧
      st'.downloadDir =
        (newFilenameOf ctx, c.saveCab arcF) :: st.downloadDir ∧
      ∃ fwobj, st'.firmwares = fwobj :: st.firmwares ∧
        List.Forall₂ (fun comp md =>
          md.cid = comp.id ∧
          ∃ cf fn, cf ∈ arcF ∧
            md.checksum_contents = c.sha1 cf.contents ∧
            md.filename_contents = fn ∧ globMatch fn cf.filename = true ∧
            contentFilenameSpec comp fn) ctx.apps fwobj.mds := by
  obtain ⟨ctx, arcF, apps', mds, hchecks, hfix, hmds, hkey, hfid, hfw, hdl⟩ :=
    upload_ok_decomp c sess st req fid st' h
  refine ⟨ctx, arcF, hchecks, hdl, mkFwobj sess ctx mds, hfw, ?_⟩
  have hfix2 := (fixChecksums_spec c ctx.data ctx.apps ctx.arc arcF apps' hfix).2
  have hmds2 := mdsOf_spec _ _ _ _ hmds
  refine forall2_trans ?_ hfix2 hmds2
  intro comp comp' md hrel hmd
  obtain ⟨hid, hprov, hver, cf, fn, hmem, hg, hspec, hcs⟩ := hrel
  obtain ⟨hcid, hguid, hver2, csum, hcsum, hval, hfn⟩ :=
    mdOf_fields _ _ _ _ hmd
  rw [hcsum] at hcs
  injection hcs with hcs
  subst hcs
  exact ⟨by rw [hcid, hid], cf, fn, hmem, hval, hfn, hg, hspec⟩

/-- A DriverVer failure is never the modelled unhandled exception. -/
lemma infDriverVer_error_not_crash
    (inf : List (String × List (String × String))) (o : Outcome)
    (h : infDriverVer inf = .error o) : o.isCrash = false := by
  unfold infDriverVer at h
  repeat' split at h
  all_goals first
    | exact Except.noConfusion h
    | (injection h with h2
       subst h2
       simp [Outcome.isCrash]
       done)
    | (subst h
       simp [Outcome.isCrash]
       done)

/-- A metainfo-validation failure is never the modelled unhandled
exception. -/
lemma processMetainfos_error_not_crash (c : Collab) (st : DbState)
    (fwvi : Option String) (cfs : List CabFile) (o : Outcome)
    (h : processMetainfos c st fwvi cfs = .error o) : o.isCrash = false := by
  induction cfs with
  | nil => exact absurd h (by simp [processMetainfos])
  | cons cf rest ih =>
    unfold processMetainfos at h
    repeat' split at h
    all_goals first
      | exact Except.noConfusion h
      | (rename_i heq
         injection h with h2
         subst h2
         exact ih heq)
      | (rename_i heq
         subst h
         exact ih heq)
      | (injection h with h2
         subst h2
         simp [Outcome.isCrash]
         done)
      | (subst h
         simp [Outcome.isCrash]
         done)

/-- When the inf block fails with the modelled unhandled exception, the
Class key had already been checked and carried the required value: the
crash can only come from the FirmwareVersion normalization. -/
lemma infChecks_crash_source (c : Collab) (arc : List CabFile) (o : Outcome)
    (h : infChecks c arc = .error o) (hcrash : o.isCrash = true) :
    ∃ cf, findFile arc "*.inf" = some cf ∧
      infGet (c.parseInf cf.contents) "Version" "Class" = some "Firmware" ∧
      infGet (c.parseInf cf.contents) "Version" "ClassGuid" =
        some FIRMWARE_CLASS_GUID := by
  unfold infChecks at h
  split at h
  · exact Except.noConfusion h
  · rename_i cf hfind
    split at h
    · injection h with h2
      subst h2
      exact absurd hcrash (by simp [Outcome.isCrash])
    · split at h
      · injection h with h2
        subst h2
        exact absurd hcrash (by simp [Outcome.isCrash])
      · rename_i cls hcls
        split at h
        · injection h with h2
          subst h2
          exact absurd hcrash (by simp [Outcome.isCrash])
        · rename_i hclsv
          have hcls' : cls = "Firmware" := by simpa using hclsv
          subst hcls'
          split at h
          · injection h with h2
            subst h2
            exact absurd hcrash (by simp [Outcome.isCrash])
          · rename_i cg hcg
            split at h
            · injection h with h2
              subst h2
              exact absurd hcrash (by simp [Outcome.isCrash])
            · rename_i hcgv
              have hcg' : cg = FIRMWARE_CLASS_GUID := by simpa using hcgv
              subst hcg'
              split at h
              · rename_i o2 heq
                injection h with h2
                subst h2
                exact absurd hcrash
                  (by simp [infDriverVer_error_not_crash _ _ heq])
              · split at h
                · exact ⟨cf, hfind, hcls, hcg⟩
                · exact Except.noConfusion h

/-- When the validation phase fails with the modelled unhandled
exception, an inf member existed and both its Class and ClassGuid keys
carried the required values. -/
lemma uploadChecks_crash_source (c : Collab) (sess : Session) (st : DbState)
    (req : UploadRequest) (o : Outcome)
    (h : uploadChecks c sess st req = .error o) (hcrash : o.isCrash = true) :
    ∃ file arc cf, req.file = some file ∧ c.parseCab file.data = .ok arc ∧
      findFile arc "*.inf" = some cf ∧
      infGet (c.parseInf cf.contents) "Version" "Class" = some "Firmware" ∧
      infGet (c.parseInf cf.contents) "Version" "ClassGuid" =
        some FIRMWARE_CLASS_GUID := by
  unfold uploadChecks at h
  simp only [] at h
  split at h
  · injection h with h2
    subst h2
    exact absurd hcrash (by simp [Outcome.isCrash])
  · split at h
    · injection h with h2
      subst h2
      exact absurd hcrash (by simp [Outcome.isCrash])
    · rename_i file hfile
      split at h
      · injection h with h2
        subst h2
        exact absurd hcrash (by simp [Outcome.isCrash])
      · split at h
        · injection h with h2
          subst h2
          exact absurd hcrash (by simp [Outcome.isCrash])
        · split at h
          · injection h with h2
            subst h2
            exact absurd hcrash (by simp [Outcome.isCrash])
          · split at h
            · injection h with h2
              subst h2
              exact absurd hcrash (by simp [Outcome.isCrash])
            · split at h
              · injection h with h2
                subst h2
                exact absurd hcrash (by simp [Outcome.isCrash])
              · split at h
                · injection h with h2
                  subst h2
                  exact absurd hcrash (by simp [Outcome.isCrash])
                · injection h with h2
                  subst h2
                  exact absurd hcrash (by simp [Outcome.isCrash])
                · rename_i arc hparse
                  split at h
                  · rename_i o2 heq
                    injection h with h2
                    subst h2
                    obtain ⟨cf, hfind, hcls, hcg⟩ :=
                      infChecks_crash_source _ _ _ heq hcrash
                    exact ⟨file, arc, cf, hfile, hparse, hfind, hcls, hcg⟩
                  · split at h
                    · injection h with h2
                      subst h2
                      exact absurd hcrash (by simp [Outcome.isCrash])
                    · split at h
                      · rename_i o2 heq
                        injection h with h2
                        subst h2
                        exact absurd hcrash
                          (by simp [processMetainfos_error_not_crash
                            _ _ _ _ _ heq])
                      · exact Except.noConfusion h

/-- Every upload either leaves the firmware table unchanged or inserts
one new record each of whose children was checked against every record
previously in the repository: no shared (guid, version) pair and no
component id rebound to a different GUID. -/
lemma upload_new_mds_checked (c : Collab) (sess : Session) (st : DbState)
    (req : UploadRequest) (o : Outcome) (st' : DbState)
    (h : upload c sess st req = (o, st')) :
    st'.firmwares = st.firmwares ∨
    ∃ fwobj, st'.firmwares = fwobj :: st.firmwares ∧
      ∀ md ∈ fwobj.mds, ∀ md2 ∈ mdsJoin st.firmwares,
        ¬(md2.guid = md.guid ∧ md2.version = md.version) ∧
        ¬(md2.cid = md.cid ∧ md2.guid ≠ md.guid) := by
  rcases upload_new_package c sess st req o st' h with hsame | hnew
  · exact Or.inl hsame
  · obtain ⟨ctx, arcF, apps', mds, hchecks, hfix, hmds, hfw⟩ := hnew
    right
    refine ⟨mkFwobj sess ctx mds, hfw, ?_⟩
    intro md hmd md2 hmd2
    obtain ⟨comp', hcomp', hmdof⟩ :=
      forall2_mem_right (mdsOf_spec _ _ _ _ hmds) md hmd
    obtain ⟨comp, hcomp, hrel⟩ :=
      forall2_mem_right
        ((fixChecksums_spec c ctx.data ctx.apps ctx.arc arcF apps' hfix).2)
        comp' hcomp'
    obtain ⟨hid, hprov, hver, -⟩ := hrel
    obtain ⟨hcid, hguid, hver2, -⟩ := mdOf_fields _ _ _ _ hmdof
    have hguidc : md.guid = headGuid comp := by
      rw [hguid]
      simp [headGuid, hprov]
    have hverc : md.version = headVersion comp := by rw [hver2, hver]
    have hcidc : md.cid = comp.id := by rw [hcid, hid]
    obtain ⟨file, -, -, -, -, fwvi, fwvd, -, hproc⟩ :=
      uploadChecks_ok_facts _ _ _ _ _ hchecks
    obtain ⟨-, -, -, hdup, hreuse⟩ :=
      processMetainfos_ok_facts _ _ _ _ _ hproc comp hcomp
    constructor
    · intro ⟨hg, hv⟩
      have : (mdsJoin st.firmwares).any (fun md0 =>
          md0.guid == headGuid comp && md0.version == headVersion comp) = true := by
        rw [List.any_eq_true]
        exact ⟨md2, hmd2, by simp [hg, hv, ← hguidc, ← hverc]⟩
      rw [hdup] at this
      exact Bool.noConfusion this
    · intro ⟨hc, hg⟩
      have hnone := List.find?_eq_none.mp hreuse md2 hmd2
      apply hnone
      simp only [Bool.and_eq_true, beq_iff_eq, bne_iff_ne]
      exact ⟨by rw [hc, hcidc], by rw [← hguidc]; exact hg⟩

/-- C2, amended: across reachable repositories no two component records
of different packages share a (guid, version) pair, because each upload
checks its descriptors against every record already stored; records
inside one package are not compared with each other, as the
counterexample shows. -/
theorem C2_pair_uniqueness_amended (st : DbState)
    (h : ReachableIngest st) : crossNoDupPairs st.firmwares = true := by
  induction h with
  | init => rfl
  | step c sess req hreach hupload ih =>
    rcases upload_new_mds_checked _ _ _ _ _ _ hupload with hsame | hnew
    · rw [hsame]
      exact ih
    · obtain ⟨fwobj, hfw, hcheck⟩ := hnew
      rw [hfw]
      unfold crossNoDupPairs
      rw [Bool.and_eq_true]
      refine ⟨?_, ih⟩
      rw [List.all_eq_true]
      intro md hmd
      rw [List.all_eq_true]
      intro md2 hmd2
      have := (hcheck md hmd md2 hmd2).1
      simp only [Bool.not_eq_eq_eq_not, Bool.not_true, Bool.and_eq_false_iff]
      by_cases hg : md.guid = md2.guid
      · right
        have hv : ¬md.version = md2.version := fun hv =>
          this ⟨hg.symm, hv.symm⟩
        simpa using hv
      · left
        simpa using hg

set_option maxRecDepth 100000 in
/-- C2, amended, witness: the state reached by the well-formed upload
satisfies cross-package pair uniqueness. -/
theorem C2_pair_uniqueness_amended_witness :
    crossNoDupPairs stGood.firmwares = true :=
  C2_pair_uniqueness_amended stGood
    (ReachableIngest.step collab1 sess1 req1 ReachableIngest.init rfl)

/-- C6, amended: across reachable repositories no component id is bound
to two different GUIDs in different packages, because each upload checks
its descriptors against every record already stored; two descriptors
inside one uploaded archive are not compared with each other, as the
counterexample shows. -/
theorem C6_cid_binding_amended (st : DbState)
    (h : ReachableIngest st) : crossNoDupCids st.firmwares = true := by
  induction h with
  | init => rfl
  | step c sess req hreach hupload ih =>
    rcases upload_new_mds_checked _ _ _ _ _ _ hupload with hsame | hnew
    · rw [hsame]
      exact ih
    · obtain ⟨fwobj, hfw, hcheck⟩ := hnew
      rw [hfw]
      unfold crossNoDupCids
      rw [Bool.and_eq_true]
      refine ⟨?_, ih⟩
      rw [List.all_eq_true]
      intro md hmd
      rw [List.all_eq_true]
      intro md2 hmd2
      have := (hcheck md hmd md2 hmd2).2
      simp only [Bool.not_eq_eq_eq_not, Bool.not_true, Bool.and_eq_false_iff]
      by_cases hc : md.cid = md2.cid
      · right
        have hg : ¬md2.guid ≠ md.guid := fun hg => this ⟨hc.symm, hg⟩
        have hg' : md2.guid = md.guid := not_not.mp hg
        simp [bne_iff_ne, hg']
      · left
        simpa using hc

set_option maxRecDepth 100000 in
/-- C6, amended, witness: the state reached by the well-formed upload
satisfies cross-package component-id binding. -/
theorem C6_cid_binding_amended_witness :
    crossNoDupCids stGood.firmwares = true :=
  C6_cid_binding_amended stGood
    (ReachableIngest.step collab1 sess1 req1 ReachableIngest.init rfl)

/-- C7, amended: for an archive that does contain an inf member,
ingestion succeeds only when Version:Class equals Firmware and
Version:ClassGuid equals the fixed well-known GUID; when either key is
missing or carries any other value, the request ends in a descriptive
validation or permission error, never a crash and never success, with no
durable state change.  Archives without an inf member skip these checks,
as the counterexample shows. -/
theorem C7_class_check_amended (c : Collab) (sess : Session) (st : DbState)
    (req : UploadRequest) (file : UploadFile) (arc : List CabFile)
    (cf : CabFile) (hfile : req.file = some file)
    (hparse : c.parseCab file.data = .ok arc)
    (hfind : findFile arc "*.inf" = some cf) :
    (∀ fid st', upload c sess st req = (.ok fid, st') →
      infGet (c.parseInf cf.contents) "Version" "Class" = some "Firmware" ∧
      infGet (c.parseInf cf.contents) "Version" "ClassGuid" =
        some FIRMWARE_CLASS_GUID) ∧
    (infGet (c.parseInf cf.contents) "Version" "Class" ≠ some "Firmware" ∨
     infGet (c.parseInf cf.contents) "Version" "ClassGuid" ≠
       some FIRMWARE_CLASS_GUID →
      ∃ o, upload c sess st req = (o, st) ∧ o.isCrash = false ∧
        ∀ fid, o ≠ .ok fid) := by
  constructor
  · intro fid st' h
    obtain ⟨ctx, arcF, apps', mds, hchecks, -, -, -, -, -, -⟩ :=
      upload_ok_decomp c sess st req fid st' h
    obtain ⟨file2, hfile2, -, -, hparse2, fwvi, fwvd, hinf, -⟩ :=
      uploadChecks_ok_facts _ _ _ _ _ hchecks
    rw [hfile] at hfile2
    injection hfile2 with hfile2
    subst hfile2
    rw [hparse] at hparse2
    injection hparse2 with hparse2
    rw [← hparse2] at hinf
    obtain ⟨hcls, hcg, -⟩ := infChecks_ok_required c arc cf fwvi fwvd hfind hinf
    exact ⟨hcls, hcg⟩
  · intro hwrong
    cases huc : uploadChecks c sess st req with
    | ok ctx =>
      obtain ⟨file2, hfile2, -, -, hparse2, fwvi, fwvd, hinf, -⟩ :=
        uploadChecks_ok_facts _ _ _ _ _ huc
      rw [hfile] at hfile2
      injection hfile2 with hfile2
      subst hfile2
      rw [hparse] at hparse2
      injection hparse2 with hparse2
      rw [← hparse2] at hinf
      obtain ⟨hcls, hcg, -⟩ := infChecks_ok_required c arc cf fwvi fwvd hfind hinf
      rcases hwrong with hwrongcls | hwrongcg
      · exact absurd hcls hwrongcls
      · exact absurd hcg hwrongcg
    | error o =>
      refine ⟨o, by unfold upload; rw [huc], ?_,
        uploadChecks_error_not_ok _ _ _ _ _ huc⟩
      by_contra hcr
      have hcrash : o.isCrash = true := by
        revert hcr
        cases o.isCrash <;> simp
      obtain ⟨file2, arc2, cf2, hfile2, hparse2, hfind2, hcls2, hcg2⟩ :=
        uploadChecks_crash_source _ _ _ _ _ huc hcrash
      rw [hfile] at hfile2
      injection hfile2 with hfile2
      subst hfile2
      rw [hparse] at hparse2
      injection hparse2 with hparse2
      subst hparse2
      rw [hfind] at hfind2
      injection hfind2 with hfind2
      subst hfind2
      rcases hwrong with hwrongcls | hwrongcg
      · exact absurd hcls2 hwrongcls
      · exact absurd hcg2 hwrongcg

set_option maxRecDepth 100000 in
/-- C7, amended, witness: the well-formed upload carries the required
Class and ClassGuid values, the same archive with a Display class value
is rejected with a non-crash error and an unchanged repository, and so is
the archive whose ClassGuid differs from the well-known constant. -/
theorem C7_class_check_amended_witness :
    (infGet (collab1.parseInf "INF1") "Version" "Class" = some "Firmware" ∧
     infGet (collab1.parseInf "INF1") "Version" "ClassGuid" =
       some FIRMWARE_CLASS_GUID) ∧
    (∃ o, upload collabBadClass sess1 emptyState req1 = (o, emptyState) ∧
      o.isCrash = false ∧ ∀ fid, o ≠ .ok fid) ∧
    (∃ o, upload collabBadGuid sess1 emptyState req1 = (o, emptyState) ∧
      o.isCrash = false ∧ ∀ fid, o ≠ .ok fid) := by
  refine ⟨?_, ?_, ?_⟩
  · exact (C7_class_check_amended collab1 sess1 emptyState req1
      ⟨"fw.cab", testData⟩ testArc1 ⟨"firmware.inf", "INF1"⟩ rfl rfl
      (by decide)).1 "h1024" stGood rfl
  · exact (C7_class_check_amended collabBadClass sess1 emptyState req1
      ⟨"fw.cab", testData⟩ testArc1 ⟨"firmware.inf", "INF1"⟩ rfl rfl
      (by decide)).2 (Or.inl (by decide))
  · exact (C7_class_check_amended collabBadGuid sess1 emptyState req1
      ⟨"fw.cab", testData⟩ testArc1 ⟨"firmware.inf", "INF1"⟩ rfl rfl
      (by decide)).2 (Or.inr (by decide))

set_option maxRecDepth 100000 in
/-- C8, counterexample: an archive whose inf supplies an empty
Firmware_AddReg HKR->FirmwareVersion value ingests successfully although
the value survives normalization and differs from the descriptor's first
release version: the Python guard at src/lvfs.py line 381 tests the
truthiness of the value first, so the empty string is never compared. -/
theorem C8_fw_version_normalized_counterexample :
    infGet (collabEmptyFwv.parseInf "INF1") "Firmware_AddReg"
      "HKR->FirmwareVersion" = some "" ∧
    normalizeFwVersion "" = .ok (some "") ∧
    collabEmptyFwv.parseComponent "M1" = .ok comp1 ∧
    headVersion comp1 = "1.2.3" ∧
    (upload collabEmptyFwv sess1 emptyState req1).1 = Outcome.ok "h1024" := by
  refine ⟨by decide, rfl, rfl, rfl, by decide⟩

/-- C8, amended: the optional Firmware_AddReg HKR->FirmwareVersion value
is normalized before comparison — a plain value passes through, a literal
0 becomes absent, a 0x-prefixed value is converted through Python int
with base 16 to its decimal string with zero again treated as absent —
and the comparison guard skips an empty surviving value; for every upload
whose validation phase accepts the archive while a non-empty normalized
value w is present, the first release version of every accepted
descriptor equals w, and a descriptor whose first release version differs
is rejected with the mismatch error naming both values (src/lvfs.py lines
341-350 and 380-384). -/
theorem C8_fw_version_normalized (c : Collab) (sess : Session)
    (st : DbState) (req : UploadRequest) :
    (∀ v, strStartsWith v "0x" = false → v ≠ "0" →
      normalizeFwVersion v = .ok (some v)) ∧
    (normalizeFwVersion "0" = .ok none) ∧
    (∀ v, ∀ n : Int, strStartsWith v "0x" = true →
      parseHexInt (strDrop v 2) = some n →
      normalizeFwVersion v =
        .ok (if toString n == "0" then none else some (toString n))) ∧
    (∀ ver, fwviMismatch (some "") ver = false) ∧
    (∀ ctx cf v w, uploadChecks c sess st req = .ok ctx →
      findFile ctx.arc "*.inf" = some cf →
      infGet (c.parseInf cf.contents) "Firmware_AddReg"
        "HKR->FirmwareVersion" = some v →
      normalizeFwVersion v = .ok (some w) → w ≠ "" →
      ∀ comp ∈ ctx.apps, headVersion comp = w) ∧
    (∀ w cf0 rest comp, c.parseComponent cf0.contents = .ok comp →
      containsFIXME cf0.contents = false → comp.provides ≠ [] →
      comp.releases ≠ [] → w ≠ "" → headVersion comp ≠ w →
      processMetainfos c st (some w) (cf0 :: rest) =
        .error (.internalError
          (versionMismatchMsg w (headVersion comp)) 402)) := by
  refine ⟨?_, ?_, ?_, ?_, ?_, ?_⟩
  · intro v hpre hzero
    unfold normalizeFwVersion
    rw [hpre]
    simp only [Bool.false_eq_true, if_false]
    rw [if_neg (by simpa using hzero)]
  · rfl
  · intro v n hpre hparse
    unfold normalizeFwVersion
    rw [hpre, hparse]
    simp
  · intro ver
    simp [fwviMismatch]
  · intro ctx cf v w hchecks hfind hkey hnorm hw
    obtain ⟨file, -, -, -, -, fwvi, fwvd, hinf, hproc⟩ :=
      uploadChecks_ok_facts _ _ _ _ _ hchecks
    obtain ⟨-, -, hfwv⟩ := infChecks_ok_required _ _ _ _ _ hfind hinf
    unfold infFwVersion at hfwv
    rw [hkey] at hfwv
    simp only [] at hfwv
    rw [hnorm] at hfwv
    injection hfwv with hfwv
    subst hfwv
    intro comp hcomp
    obtain ⟨-, -, hmis, -, -⟩ :=
      processMetainfos_ok_facts _ _ _ _ _ hproc comp hcomp
    by_contra hne
    have hT : fwviMismatch (some w) (headVersion comp) = true := by
      simp only [fwviMismatch, Bool.and_eq_true, bne_iff_ne]
      exact ⟨hw, fun hwc => hne hwc.symm⟩
    rw [hT] at hmis
    exact Bool.noConfusion hmis
  · intro w cf0 rest comp hparse hfixme hprov hrel hw hver
    obtain ⟨g0, ptl, hprov'⟩ := List.exists_cons_of_ne_nil hprov
    obtain ⟨r0, rtl, hrel'⟩ := List.exists_cons_of_ne_nil hrel
    have hhead : headVersion comp = r0.version := by
      simp [headVersion, hrel']
    unfold processMetainfos
    rw [hparse]
    simp only [hfixme, Bool.false_eq_true, if_false]
    rw [hprov', hrel']
    simp only []
    rw [if_pos]
    · rw [← hhead]
      rfl
    · rw [← hhead]
      simp only [fwviMismatch, Bool.and_eq_true, bne_iff_ne]
      exact ⟨hw, Ne.symm hver⟩

set_option maxRecDepth 100000 in
/-- C8, amended, witness: a decimal value passes through, zero is
dropped, hex 0x102 becomes 258 as do its signed, whitespace-padded and
re-prefixed spellings that Python int accepts, the empty value is never
compared, the accepted descriptor of a validated upload carrying hex
FirmwareVersion 0x102 has release version 258, and a mismatching
non-empty value is rejected with the message naming both versions. -/
theorem C8_fw_version_normalized_witness :
    normalizeFwVersion "1.2.3" = .ok (some "1.2.3") ∧
    normalizeFwVersion "0" = .ok none ∧
    normalizeFwVersion "0x102" = .ok (some "258") ∧
    normalizeFwVersion "0x 0x102 " = .ok (some "258") ∧
    normalizeFwVersion "0x-5" = .ok (some "-5") ∧
    fwviMismatch (some "") "1.2.3" = false ∧
    headVersion compV258 = "258" ∧
    processMetainfos collab1 emptyState (some "9.9.9")
        [⟨"device.metainfo.xml", "M1"⟩] =
      .error (.internalError (versionMismatchMsg "9.9.9" "1.2.3") 402) := by
  refine ⟨?_, ?_, ?_, ?_, ?_, ?_, ?_, ?_⟩
  · exact (C8_fw_version_normalized collab1 sess1 emptyState req1).1 "1.2.3"
      (by decide) (by decide)
  · exact (C8_fw_version_normalized collab1 sess1 emptyState req1).2.1
  · have h := (C8_fw_version_normalized collab1 sess1 emptyState req1).2.2.1
      "0x102" 258 (by decide) (by decide)
    simpa using h
  · have h := (C8_fw_version_normalized collab1 sess1 emptyState req1).2.2.1
      "0x 0x102 " 258 (by decide) (by decide)
    simpa using h
  · have h := (C8_fw_version_normalized collab1 sess1 emptyState req1).2.2.1
      "0x-5" (-5) (by decide) (by decide)
    simpa using h
  · exact (C8_fw_version_normalized collab1 sess1 emptyState req1).2.2.2.1
      "1.2.3"
  · exact (C8_fw_version_normalized collabFwv102 sess1 emptyState
      req1).2.2.2.2.1 ctx258 ⟨"firmware.inf", "INF1"⟩ "0x102" "258" rfl
      (by decide) (by decide) rfl (by decide) compV258 (by decide)
  · have h := (C8_fw_version_normalized collab1 sess1 emptyState
      req1).2.2.2.2.2 "9.9.9" ⟨"device.metainfo.xml", "M1"⟩ [] comp1 rfl
      (by decide) (by decide) (by decide) (by decide) (by decide)
    simpa using h

set_option maxRecDepth 100000 in
/-- C1, witness: the well-formed single-component upload satisfies the
content-checksum relation. -/
theorem C1_content_checksum_recomputed_witness :
    ∃ ctx arcF, uploadChecks collab1 sess1 emptyState req1 = .ok ctx ∧
      stGood.downloadDir =
        (newFilenameOf ctx, collab1.saveCab arcF) :: emptyState.downloadDir ∧
      ∃ fwobj, stGood.firmwares = fwobj :: emptyState.firmwares ∧
        List.Forall₂ (fun comp md =>
          md.cid = comp.id ∧
          ∃ cf fn, cf ∈ arcF ∧
            md.checksum_contents = collab1.sha1 cf.contents ∧
            md.filename_contents = fn ∧ globMatch fn cf.filename = true ∧
            contentFilenameSpec comp fn) ctx.apps fwobj.mds :=
  C1_content_checksum_recomputed collab1 sess1 emptyState req1 "h1024" stGood
    rfl

end Lvfs
